import Mathlib

/-!
# Verification of the baseline-intake audio/control bridge

Shallow embedding of the bridge subsystem of the `baseline-intake`
repository: the frame reassembler, the preroll buffer, the readiness
gating of the Deepgram voice bridges, the shadow-intake extractor, the
upstream-message classifier and the teardown routine.  Every definition
is translated from the JavaScript/TypeScript source; the file reference
for each definition is given in its doc comment.

Bytes are modelled as `Nat`, buffers as `List Nat`, audio frames as
`List Nat`.  Sends on a socket are modelled as appends to a list that
records, in order, everything delivered to that socket (the `try/catch`
wrappers around `send` in the source swallow exceptions; we model the
successful path, which is the only one the claims are about).
-/

namespace BaselineIntake

/-! ## Frame reassembler (src/lib/web-demo-live.cjs lines 293-321, src/index.js lines 408-431)

The mic path accumulates binary chunks in `micBuf` and slices off
`BYTES_PER_FRAME`-byte frames while enough bytes are buffered:

    micBuf = Buffer.concat([micBuf, buf]);
    while (micBuf.length >= BYTES_PER_FRAME) {
      const frame = micBuf.subarray(0, BYTES_PER_FRAME);
      micBuf = micBuf.subarray(BYTES_PER_FRAME);
      ... emit frame ...
    }
-/

/-- `BYTES_PER_FRAME = Math.round(IN_RATE * 2 * (FRAME_MS / 1000))` with
`IN_RATE = 16000`, `FRAME_MS = 20`: 640 bytes per 20 ms frame of 16 kHz
16-bit mono PCM (src/lib/web-demo-live.cjs lines 293-295). -/
def BYTES_PER_FRAME : Nat := 16000 * 2 * 20 / 1000

theorem BYTES_PER_FRAME_eq : BYTES_PER_FRAME = 640 := rfl

/-- The `while (micBuf.length >= frameBytes)` slicing loop: returns the
list of complete frames sliced off the front of `buf`, in order, and the
residual buffer (shorter than `frameBytes`, kept for the next chunk). -/
def sliceFrames (fb : Nat) (buf : List Nat) : List (List Nat) × List Nat :=
  if h : 0 < fb ∧ fb ≤ buf.length then
    have : (buf.drop fb).length < buf.length := by
      rw [List.length_drop]
      exact Nat.sub_lt (Nat.lt_of_lt_of_le h.1 h.2) h.1
    let p := sliceFrames fb (buf.drop fb)
    (buf.take fb :: p.1, p.2)
  else
    ([], buf)
  termination_by buf.length

/-- One invocation of the client `message` handler on a binary chunk:
append the chunk to the residual buffer, then run the slicing loop.  The
first component accumulates all frames emitted so far. -/
def feedChunk (fb : Nat) (st : List (List Nat) × List Nat) (chunk : List Nat) :
    List (List Nat) × List Nat :=
  let p := sliceFrames fb (st.2 ++ chunk)
  (st.1 ++ p.1, p.2)

/-- Feeding a whole sequence of chunks into a fresh reassembler. -/
def feedChunks (fb : Nat) (chunks : List (List Nat)) : List (List Nat) × List Nat :=
  chunks.foldl (feedChunk fb) ([], [])

theorem sliceFrames_pos (fb : Nat) (buf : List Nat) (h : 0 < fb) (hle : fb ≤ buf.length) :
    sliceFrames fb buf =
      ((buf.take fb) :: (sliceFrames fb (buf.drop fb)).1, (sliceFrames fb (buf.drop fb)).2) := by
  rw [sliceFrames]
  simp [h, hle]

theorem sliceFrames_short (fb : Nat) (buf : List Nat) (h : ¬(0 < fb ∧ fb ≤ buf.length)) :
    sliceFrames fb buf = ([], buf) := by
  rw [sliceFrames]
  simp [h]

/-- The residual left by the slicing loop is always shorter than the
frame size. -/
theorem sliceFrames_residual_lt (fb : Nat) (hfb : 0 < fb) (buf : List Nat) :
    (sliceFrames fb buf).2.length < fb := by
  suffices h : ∀ n (buf : List Nat), buf.length ≤ n → (sliceFrames fb buf).2.length < fb from
    h buf.length buf le_rfl
  intro n
  induction n with
  | zero =>
    intro buf hlen
    rw [sliceFrames_short fb buf (by omega)]
    show buf.length < fb
    omega
  | succ n ih =>
    intro buf hlen
    by_cases hle : fb ≤ buf.length
    · rw [sliceFrames_pos fb buf hfb hle]
      exact ih (buf.drop fb) (by rw [List.length_drop]; omega)
    · rw [sliceFrames_short fb buf (by tauto)]
      show buf.length < fb
      omega

/-- Every frame emitted by the slicing loop has exactly `fb` bytes. -/
theorem sliceFrames_frames_length (fb : Nat) (hfb : 0 < fb) (buf : List Nat) :
    ∀ f ∈ (sliceFrames fb buf).1, f.length = fb := by
  suffices h : ∀ n (buf : List Nat), buf.length ≤ n →
      ∀ f ∈ (sliceFrames fb buf).1, f.length = fb from h buf.length buf le_rfl
  intro n
  induction n with
  | zero =>
    intro buf hlen
    rw [sliceFrames_short fb buf (by omega)]
    intro f hf; simp at hf
  | succ n ih =>
    intro buf hlen
    by_cases hle : fb ≤ buf.length
    · rw [sliceFrames_pos fb buf hfb hle]
      intro f hf
      rcases List.mem_cons.mp hf with h | h
      · subst h; rw [List.length_take]; omega
      · exact ih (buf.drop fb) (by rw [List.length_drop]; omega) f h
    · rw [sliceFrames_short fb buf (by tauto)]
      intro f hf; simp at hf

/-- The slicing loop emits exactly `buf.length / fb` frames and keeps
`buf.length % fb` residual bytes. -/
theorem sliceFrames_count (fb : Nat) (hfb : 0 < fb) (buf : List Nat) :
    (sliceFrames fb buf).1.length = buf.length / fb ∧
    (sliceFrames fb buf).2.length = buf.length % fb := by
  suffices h : ∀ n (buf : List Nat), buf.length ≤ n →
      (sliceFrames fb buf).1.length = buf.length / fb ∧
      (sliceFrames fb buf).2.length = buf.length % fb from h buf.length buf le_rfl
  intro n
  induction n with
  | zero =>
    intro buf hlen
    have h0 : buf.length = 0 := by omega
    rw [sliceFrames_short fb buf (by omega)]
    constructor
    · show ([] : List (List Nat)).length = _
      simp [h0, Nat.zero_div]
    · show buf.length = _
      simp [h0]
  | succ n ih =>
    intro buf hlen
    by_cases hle : fb ≤ buf.length
    · rw [sliceFrames_pos fb buf hfb hle]
      have hd : (buf.drop fb).length ≤ n := by rw [List.length_drop]; omega
      obtain ⟨h1, h2⟩ := ih (buf.drop fb) hd
      constructor
      · show (sliceFrames fb (buf.drop fb)).1.length + 1 = _
        rw [h1, List.length_drop, Nat.div_eq_sub_div hfb hle]
      · show (sliceFrames fb (buf.drop fb)).2.length = _
        rw [h2, List.length_drop, Nat.mod_eq_sub_mod hle]
    · rw [sliceFrames_short fb buf (by tauto)]
      constructor
      · show ([] : List (List Nat)).length = _
        rw [List.length_nil, Nat.div_eq_of_lt (by omega)]
      · show buf.length = _
        rw [Nat.mod_eq_of_lt (by omega)]

/-- Slicing is insensitive to where the byte stream is cut: slicing
`b ++ t` is the same as slicing `b` and then slicing its residual
prefixed to `t`. -/
theorem sliceFrames_append (fb : Nat) (hfb : 0 < fb) (b t : List Nat) :
    sliceFrames fb (b ++ t) =
      ((sliceFrames fb b).1 ++ (sliceFrames fb ((sliceFrames fb b).2 ++ t)).1,
       (sliceFrames fb ((sliceFrames fb b).2 ++ t)).2) := by
  suffices h : ∀ n (b : List Nat), b.length ≤ n →
      sliceFrames fb (b ++ t) =
        ((sliceFrames fb b).1 ++ (sliceFrames fb ((sliceFrames fb b).2 ++ t)).1,
         (sliceFrames fb ((sliceFrames fb b).2 ++ t)).2) from h b.length b le_rfl
  intro n
  induction n with
  | zero =>
    intro b hlen
    have h0 : b.length = 0 := by omega
    have hb : b = [] := List.length_eq_zero.mp h0
    subst hb
    rw [sliceFrames_short fb [] (by simpa using by omega)]
    simp
  | succ n ih =>
    intro b hlen
    by_cases hle : fb ≤ b.length
    · have hle' : fb ≤ (b ++ t).length := by rw [List.length_append]; omega
      rw [sliceFrames_pos fb (b ++ t) hfb hle', sliceFrames_pos fb b hfb hle]
      have htake : (b ++ t).take fb = b.take fb := List.take_append_of_le_length hle
      have hdrop : (b ++ t).drop fb = b.drop fb ++ t := List.drop_append_of_le_length hle
      rw [htake, hdrop, ih (b.drop fb) (by rw [List.length_drop]; omega)]
      simp
    · rw [sliceFrames_short fb b (by tauto)]
      simp

/-- Running the per-chunk handler over any chunk sequence is the same as
slicing the concatenated byte stream in one go. -/
theorem feedChunks_eq_sliceFrames (fb : Nat) (hfb : 0 < fb) (chunks : List (List Nat)) :
    feedChunks fb chunks = sliceFrames fb chunks.flatten := by
  suffices h : ∀ (chunks : List (List Nat)) (acc : List (List Nat)) (r : List Nat),
      (sliceFrames fb r = ([], r)) →
      chunks.foldl (feedChunk fb) (acc, r) =
        (acc ++ (sliceFrames fb (r ++ chunks.flatten)).1,
         (sliceFrames fb (r ++ chunks.flatten)).2) by
    have h0 : sliceFrames fb ([] : List Nat) = ([], []) :=
      sliceFrames_short fb [] (by simp; omega)
    have := h chunks [] [] h0
    simpa [feedChunks] using this
  intro chunks
  induction chunks with
  | nil =>
    intro acc r hr
    simp [hr]
  | cons c cs ih =>
    intro acc r hr
    have hstep : feedChunk fb (acc, r) c =
        (acc ++ (sliceFrames fb (r ++ c)).1, (sliceFrames fb (r ++ c)).2) := rfl
    have hres : sliceFrames fb (sliceFrames fb (r ++ c)).2 = ([], (sliceFrames fb (r ++ c)).2) :=
      sliceFrames_short fb _ (by
        have := sliceFrames_residual_lt fb hfb (r ++ c)
        omega)
    calc (c :: cs).foldl (feedChunk fb) (acc, r)
        = cs.foldl (feedChunk fb) (feedChunk fb (acc, r) c) := by rw [List.foldl_cons]
      _ = (acc ++ (sliceFrames fb (r ++ c)).1 ++
            (sliceFrames fb ((sliceFrames fb (r ++ c)).2 ++ cs.flatten)).1,
           (sliceFrames fb ((sliceFrames fb (r ++ c)).2 ++ cs.flatten)).2) := by
          rw [hstep, ih _ _ hres]
      _ = (acc ++ (sliceFrames fb (r ++ c ++ cs.flatten)).1,
           (sliceFrames fb (r ++ c ++ cs.flatten)).2) := by
          rw [sliceFrames_append fb hfb (r ++ c) cs.flatten]
          simp
      _ = (acc ++ (sliceFrames fb (r ++ (c :: cs).flatten)).1,
           (sliceFrames fb (r ++ (c :: cs).flatten)).2) := by
          simp

/-- **C2.** Framing invariant: for every sequence of binary chunks from
the client whose total size is `N * 640 + r` with `r < 640` (640 =
`BYTES_PER_FRAME` of the 16 kHz PCM variant), the frame reassembler of
`src/lib/web-demo-live.cjs` (lines 293-321; identical loop in
`src/index.js` lines 408-431) emits exactly `N` complete frames of
exactly 640 bytes each and retains exactly `r` residual bytes,
independently of how the byte stream was split into chunks (its result
equals slicing the concatenated stream in one go); a partial frame is
never emitted. -/
theorem C2_framing_invariant (chunks : List (List Nat)) (N r : Nat)
    (hr : r < BYTES_PER_FRAME)
    (htotal : chunks.flatten.length = N * BYTES_PER_FRAME + r) :
    (feedChunks BYTES_PER_FRAME chunks).1.length = N ∧
    (∀ f ∈ (feedChunks BYTES_PER_FRAME chunks).1, f.length = BYTES_PER_FRAME) ∧
    (feedChunks BYTES_PER_FRAME chunks).2.length = r ∧
    feedChunks BYTES_PER_FRAME chunks = sliceFrames BYTES_PER_FRAME chunks.flatten := by
  have hfb : 0 < BYTES_PER_FRAME := by rw [BYTES_PER_FRAME_eq]; omega
  have heq := feedChunks_eq_sliceFrames BYTES_PER_FRAME hfb chunks
  obtain ⟨h1, h2⟩ := sliceFrames_count BYTES_PER_FRAME hfb chunks.flatten
  refine ⟨?_, ?_, ?_, heq⟩
  · rw [heq, h1, htotal, Nat.add_comm, Nat.add_mul_div_right _ _ hfb, Nat.div_eq_of_lt hr]
    omega
  · rw [heq]
    exact sliceFrames_frames_length BYTES_PER_FRAME hfb chunks.flatten
  · rw [heq, h2, htotal, Nat.add_comm, Nat.add_mul_mod_self_right, Nat.mod_eq_of_lt hr]

/-- Witness for C2 at a concrete input: chunks of sizes 3 and 2 with
frame size 640 yield no complete frame and a 5-byte residual. -/
theorem C2_framing_invariant_witness :
    (5 : Nat) < BYTES_PER_FRAME ∧
    ([[1, 2, 3], [4, 5]] : List (List Nat)).flatten.length = 0 * BYTES_PER_FRAME + 5 ∧
    (feedChunks BYTES_PER_FRAME [[1, 2, 3], [4, 5]]).1.length = 0 ∧
    (feedChunks BYTES_PER_FRAME [[1, 2, 3], [4, 5]]).2.length = 5 :=
  ⟨by decide, by decide,
   (C2_framing_invariant [[1, 2, 3], [4, 5]] 0 5 (by decide) (by decide)).1,
   (C2_framing_invariant [[1, 2, 3], [4, 5]] 0 5 (by decide) (by decide)).2.2.1⟩

/-! ## Preroll buffer (src/lib/web-demo-live.cjs lines 206-207, 311-320, 229-236)

    const preFrames = [];
    const MAX_PRE_FRAMES = 200;
    ...
    preFrames.push(frame);
    if (preFrames.length > MAX_PRE_FRAMES) preFrames.shift();
    ...
    case "SettingsApplied":
      settingsApplied = true;
      if (preFrames.length) {
        try { for (const fr of preFrames) upstream.send(fr); } catch {}
        preFrames.length = 0;
      }
-/

/-- `MAX_PRE_FRAMES = 200` (≈ 4 s of 20 ms frames). -/
def MAX_PRE_FRAMES : Nat := 200

/-- `preFrames.push(frame); if (preFrames.length > MAX_PRE_FRAMES) preFrames.shift();`
— append at the tail, then evict the head when the bound is exceeded
(drop-oldest). -/
def prerollPush (q : List (List Nat)) (f : List Nat) : List (List Nat) :=
  let q2 := q ++ [f]
  if MAX_PRE_FRAMES < q2.length then q2.tail else q2

/-- Pushing a whole list of frames in order. -/
def prerollPushAll (q : List (List Nat)) (fs : List (List Nat)) : List (List Nat) :=
  fs.foldl prerollPush q


theorem MAX_PRE_FRAMES_eq : MAX_PRE_FRAMES = 200 := rfl

theorem prerollPush_small (q : List (List Nat)) (f : List Nat)
    (h : q.length < MAX_PRE_FRAMES) : prerollPush q f = q ++ [f] := by
  unfold prerollPush
  have hn : ¬ MAX_PRE_FRAMES < (q ++ [f]).length := by
    simp only [List.length_append, List.length_cons, List.length_nil]
    omega
  rw [if_neg hn]

theorem prerollPush_full (q : List (List Nat)) (f : List Nat)
    (h : q.length = MAX_PRE_FRAMES) : prerollPush q f = q.tail ++ [f] := by
  unfold prerollPush
  have hM : MAX_PRE_FRAMES = 200 := rfl
  have hlt : MAX_PRE_FRAMES < (q ++ [f]).length := by
    simp only [List.length_append, List.length_cons, List.length_nil]
    omega
  simp only [hlt, if_true]
  cases q with
  | nil => simp [hM] at h
  | cons a q' => simp

/-- A push never leaves more than `MAX_PRE_FRAMES` frames queued. -/
theorem prerollPush_bound (q : List (List Nat)) (f : List Nat)
    (h : q.length ≤ MAX_PRE_FRAMES) : (prerollPush q f).length ≤ MAX_PRE_FRAMES := by
  have hM : MAX_PRE_FRAMES = 200 := rfl
  by_cases hfull : q.length = MAX_PRE_FRAMES
  · rw [prerollPush_full q f hfull]
    simp only [List.length_append, List.length_tail, List.length_cons, List.length_nil]
    omega
  · rw [prerollPush_small q f (by omega)]
    simp only [List.length_append, List.length_cons, List.length_nil]
    omega

set_option maxRecDepth 8192 in
/-- Pushing `fs` into a queue holding at most `MAX_PRE_FRAMES` frames
leaves exactly the most recent `min` suffix of `q ++ fs`: the oldest
overflow is dropped, the relative order is preserved. -/
theorem prerollPushAll_eq_drop (fs : List (List Nat)) :
    ∀ q : List (List Nat), q.length ≤ MAX_PRE_FRAMES →
      prerollPushAll q fs = (q ++ fs).drop (q.length + fs.length - MAX_PRE_FRAMES) := by
  have hM : MAX_PRE_FRAMES = 200 := rfl
  induction fs with
  | nil =>
    intro q hq
    unfold prerollPushAll
    simp only [List.foldl_nil, List.append_nil, List.length_nil, Nat.add_zero]
    rw [Nat.sub_eq_zero_of_le hq, List.drop_zero]
  | cons f fs ih =>
    intro q hq
    have hstep : prerollPushAll q (f :: fs) = prerollPushAll (prerollPush q f) fs := rfl
    rw [hstep, ih _ (prerollPush_bound q f hq)]
    by_cases hfull : q.length = MAX_PRE_FRAMES
    · obtain ⟨a, q', rfl⟩ : ∃ a q', q = a :: q' := by
        cases q with
        | nil => simp [hM] at hfull
        | cons a q' => exact ⟨a, q', rfl⟩
      rw [prerollPush_full _ f hfull]
      simp only [List.tail_cons] at *
      have hq' : q'.length = 199 := by
        simp only [List.length_cons] at hfull
        omega
      have hi : (q' ++ [f]).length + fs.length - MAX_PRE_FRAMES = fs.length := by
        simp only [List.length_append, List.length_cons, List.length_nil]
        omega
      have hj : (a :: q').length + (f :: fs).length - MAX_PRE_FRAMES = fs.length + 1 := by
        simp only [List.length_cons]
        omega
      rw [hi, hj, List.cons_append, List.drop_succ_cons]
      congr 1
      simp
    · rw [prerollPush_small q f (by omega)]
      have hi : (q ++ [f]).length + fs.length - MAX_PRE_FRAMES
          = q.length + (f :: fs).length - MAX_PRE_FRAMES := by
        simp only [List.length_append, List.length_cons, List.length_nil]
        omega
      rw [hi]
      congr 1
      simp

/-! ## The web-demo-live bridge audio path (src/lib/web-demo-live.cjs)

Per-connection state machine for the mic-audio path of
`setupWebDemoLive`.  Events are the externally triggered callbacks that
touch that path: the upstream `open` callback (line 198, which calls
`sendSettings`), a classified `Welcome` event (line 224), a classified
`SettingsApplied` event (lines 229-236), a binary chunk from the client
(lines 299-321) and a text message from the client (lines 302-306,
ignored).  Upstream `message` callbacks can only fire after the upstream
socket is open, so message-borne events are no-ops while `upOpen` is
false.  `micSent` records, in order, every mic audio frame delivered to
the upstream socket. -/
structure WdlState where
  upOpen : Bool
  settingsSent : Bool
  settingsApplied : Bool
  micBuf : List Nat
  preFrames : List (List Nat)
  micSent : List (List Nat)
  deriving Repr, DecidableEq

def wdlInit : WdlState :=
  { upOpen := false, settingsSent := false, settingsApplied := false,
    micBuf := [], preFrames := [], micSent := [] }

inductive WdlEv where
  | upOpen
  | welcome
  | settingsApplied
  | clientChunk (c : List Nat)
  | clientText (s : String)
  deriving Repr, DecidableEq

/-- One step of the `setupWebDemoLive` audio path.

* `upOpen`: `upstream.on("open", ...)` calls `sendSettings()`, which sets
  `settingsSent = true` (the Settings JSON is a control message, not
  audio).
* `welcome`: the `Welcome` case re-invokes `sendSettings()` (idempotent).
* `settingsApplied`: the `SettingsApplied` case sets
  `settingsApplied = true` and flushes `preFrames` to the upstream in
  order, then clears it.
* `clientChunk c`: the client `message` handler returns immediately when
  the upstream is not open; otherwise it appends `c` to `micBuf`, slices
  complete frames, and per frame either queues to `preFrames`
  (`!settingsSent || !settingsApplied`) or sends upstream.  The flags do
  not change inside the slicing loop, so all frames of one chunk take
  the same branch.
* `clientText s`: ignored (a `status` reply is sent to the client). -/
def wdlStep (s : WdlState) : WdlEv → WdlState
  | .upOpen => { s with upOpen := true, settingsSent := true }
  | .welcome => if s.upOpen then { s with settingsSent := true } else s
  | .settingsApplied =>
      if s.upOpen then
        { s with settingsApplied := true,
                 micSent := s.micSent ++ s.preFrames, preFrames := [] }
      else s
  | .clientChunk c =>
      if s.upOpen then
        let p := sliceFrames BYTES_PER_FRAME (s.micBuf ++ c)
        if s.settingsSent && s.settingsApplied then
          { s with micBuf := p.2, micSent := s.micSent ++ p.1 }
        else
          { s with micBuf := p.2, preFrames := prerollPushAll s.preFrames p.1 }
      else s
  | .clientText _ => s

def wdlRun (evs : List WdlEv) : WdlState := evs.foldl wdlStep wdlInit

def wdlRunFrom (s : WdlState) (evs : List WdlEv) : WdlState := evs.foldl wdlStep s

/-- `micSent` is append-only: no step ever removes or reorders what was
already delivered to the upstream socket. -/
theorem wdlStep_micSent_mono (s : WdlState) (e : WdlEv) :
    ∃ t, (wdlStep s e).micSent = s.micSent ++ t := by
  cases e with
  | upOpen => exact ⟨[], by simp [wdlStep]⟩
  | welcome =>
    by_cases h : s.upOpen <;> exact ⟨[], by simp [wdlStep, h]⟩
  | settingsApplied =>
    by_cases h : s.upOpen
    · exact ⟨s.preFrames, by simp [wdlStep, h]⟩
    · exact ⟨[], by simp [wdlStep, h]⟩
  | clientChunk c =>
    by_cases h : s.upOpen
    · by_cases h2 : s.settingsSent && s.settingsApplied
      · exact ⟨(sliceFrames BYTES_PER_FRAME (s.micBuf ++ c)).1, by simp [wdlStep, h, h2]⟩
      · exact ⟨[], by simp [wdlStep, h, h2]⟩
    · exact ⟨[], by simp [wdlStep, h]⟩
  | clientText str => exact ⟨[], by simp [wdlStep]⟩

theorem wdlRunFrom_micSent_mono (evs : List WdlEv) :
    ∀ s : WdlState, ∃ t, (wdlRunFrom s evs).micSent = s.micSent ++ t := by
  induction evs with
  | nil => intro s; exact ⟨[], by simp [wdlRunFrom]⟩
  | cons e evs ih =>
    intro s
    obtain ⟨t1, h1⟩ := wdlStep_micSent_mono s e
    obtain ⟨t2, h2⟩ := ih (wdlStep s e)
    exact ⟨t1 ++ t2, by
      show (wdlRunFrom (wdlStep s e) evs).micSent = _
      rw [h2, h1, List.append_assoc]⟩

/-- **C3.** Preroll bound and drain order: a push into the preroll
buffer (capacity `MAX_PRE_FRAMES = 200`) never leaves more than 200
frames queued (overflow evicts the oldest); pushing any sequence `fs`
into the empty buffer leaves exactly the most-recently-pushed
`min (fs.length) 200` frames in original relative order (the suffix
`fs.drop (fs.length - 200)`); the drain performed by the
`SettingsApplied` handler of `src/lib/web-demo-live.cjs` (lines 229-236)
sends exactly the queued frames to the upstream in order and leaves the
buffer empty; and everything the upstream receives afterwards comes
strictly after those drained frames. -/
theorem C3_preroll_bound_and_drain (q : List (List Nat)) (f : List Nat)
    (fs : List (List Nat)) (s : WdlState) (evs : List WdlEv)
    (hq : q.length ≤ MAX_PRE_FRAMES) (hs : s.upOpen = true) :
    (prerollPush q f).length ≤ MAX_PRE_FRAMES ∧
    prerollPushAll [] fs = fs.drop (fs.length - MAX_PRE_FRAMES) ∧
    (prerollPushAll [] fs).length = min fs.length MAX_PRE_FRAMES ∧
    (wdlStep s .settingsApplied).micSent = s.micSent ++ s.preFrames ∧
    (wdlStep s .settingsApplied).preFrames = [] ∧
    (∃ t, (wdlRunFrom (wdlStep s .settingsApplied) evs).micSent
            = (s.micSent ++ s.preFrames) ++ t) := by
  have hM : MAX_PRE_FRAMES = 200 := rfl
  have hempty : ([] : List (List Nat)).length ≤ MAX_PRE_FRAMES := by simp
  have hdrop := prerollPushAll_eq_drop fs [] hempty
  simp only [List.nil_append, List.length_nil, Nat.zero_add] at hdrop
  refine ⟨prerollPush_bound q f hq, hdrop, ?_, ?_, ?_, ?_⟩
  · rw [hdrop, List.length_drop]
    omega
  · simp [wdlStep, hs]
  · simp [wdlStep, hs]
  · obtain ⟨t, ht⟩ := wdlRunFrom_micSent_mono evs (wdlStep s WdlEv.settingsApplied)
    refine ⟨t, ?_⟩
    rw [ht]
    congr 1
    simp [wdlStep, hs]

/-- Witness for C3 at a concrete input: an open connection holding one
preroll frame `[9]`; two frames pushed into an empty buffer stay, and
the acknowledgment drain delivers the queued frame. -/
theorem C3_preroll_bound_and_drain_witness :
    ([[7]] : List (List Nat)).length ≤ MAX_PRE_FRAMES ∧
    ({ upOpen := true, settingsSent := true, settingsApplied := false,
       micBuf := [], preFrames := [[9]], micSent := [] } : WdlState).upOpen = true ∧
    prerollPushAll [[7]] [[1], [2]] = prerollPushAll [[7]] [[1], [2]] ∧
    (wdlStep { upOpen := true, settingsSent := true, settingsApplied := false,
               micBuf := [], preFrames := [[9]], micSent := [] } .settingsApplied).micSent
      = [] ++ [[9]] := by
  refine ⟨by decide, by decide, rfl, ?_⟩
  exact (C3_preroll_bound_and_drain [[7]] [8] [[1], [2]]
    { upOpen := true, settingsSent := true, settingsApplied := false,
      micBuf := [], preFrames := [[9]], micSent := [] } [] (by decide) (by decide)).2.2.2.1

/-! ## The createVoiceBridge variant (src/unnamed/part_012, lines 103-262)

Per-connection machine for the 16 kHz browser bridge `createVoiceBridge`.
Client binary messages are relayed at message granularity (this variant
has no reassembly loop).  Events:

* `upOpen` — `dgWS.on('open')`, calls `sendSettings()` (line 164);
* `welcome` — classified `Welcome` event, calls `sendSettings()` (line 183);
* `settingsApplied` — classified `SettingsApplied` event (lines 184-189):
  sets `settingsApplied = true` and calls `flushPrerollIfReady()`;
* `upstreamAudio` — a binary (non-JSON) upstream message (lines 229-231):
  forwarded to the client, and if `settingsSent && !settingsApplied` the
  bridge assumes the settings took effect (`settings_assumed_after_audio`)
  and flushes the preroll;
* `clientFrame f` — a binary mic message (lines 253-255): dropped when
  the upstream is not open, queued to the capped preroll while
  `!settingsApplied`, sent upstream otherwise.

Upstream `message` events fire only on an open socket, so the
message-borne events are no-ops while `upOpen` is false.  `micSent`
records every mic frame delivered to the upstream socket, in order. -/
structure P12State where
  upOpen : Bool
  settingsSent : Bool
  settingsApplied : Bool
  preFrames : List (List Nat)
  micSent : List (List Nat)
  deriving Repr, DecidableEq

def p12Init : P12State :=
  { upOpen := false, settingsSent := false, settingsApplied := false,
    preFrames := [], micSent := [] }

inductive P12Ev where
  | upOpen
  | welcome
  | settingsApplied
  | upstreamAudio
  | clientFrame (f : List Nat)
  deriving Repr, DecidableEq

/-- `flushPrerollIfReady()` (part_012 lines 173-177): when
`settingsApplied` holds, send every queued preroll frame upstream in
order and clear the queue (no-op on an empty queue, exactly as the
`!preFrames.length` early return). -/
def p12Flush (s : P12State) : P12State :=
  if s.settingsApplied then
    { s with micSent := s.micSent ++ s.preFrames, preFrames := [] }
  else s

def p12Step (s : P12State) : P12Ev → P12State
  | .upOpen => { s with upOpen := true, settingsSent := true }
  | .welcome => if s.upOpen then { s with settingsSent := true } else s
  | .settingsApplied =>
      if s.upOpen then p12Flush { s with settingsApplied := true } else s
  | .upstreamAudio =>
      if s.upOpen then
        if s.settingsSent && !s.settingsApplied then
          p12Flush { s with settingsApplied := true }
        else s
      else s
  | .clientFrame f =>
      if s.upOpen then
        if s.settingsApplied then { s with micSent := s.micSent ++ [f] }
        else { s with preFrames := prerollPush s.preFrames f }
      else s

def p12Run (evs : List P12Ev) : P12State := evs.foldl p12Step p12Init

/-- Reachable-state invariant of the part_012 bridge: the upstream open
callback sets `settingsSent`, and `settingsApplied` is only ever set on
an open socket, so `settingsApplied → upOpen → settingsSent`. -/
theorem p12Run_invariant (evs : List P12Ev) :
    ((p12Run evs).upOpen → (p12Run evs).settingsSent = true) ∧
    ((p12Run evs).settingsApplied → (p12Run evs).upOpen = true) := by
  suffices h : ∀ (s : P12State),
      (s.upOpen → s.settingsSent = true) → (s.settingsApplied → s.upOpen = true) →
      ∀ evs : List P12Ev,
        ((evs.foldl p12Step s).upOpen → (evs.foldl p12Step s).settingsSent = true) ∧
        ((evs.foldl p12Step s).settingsApplied → (evs.foldl p12Step s).upOpen = true) by
    exact h p12Init (by intro h; cases h) (by intro h; cases h) evs
  intro s h1 h2 evs
  induction evs generalizing s with
  | nil => exact ⟨h1, h2⟩
  | cons e evs ih =>
    refine ih (p12Step s e) ?_ ?_ <;> cases e <;>
      simp only [p12Step, p12Flush] <;>
      (try split) <;> (try split) <;> simp_all

/-- As long as no `SettingsApplied` event has been classified and no
upstream binary audio has arrived, nothing is ever sent on the
upstream's audio path: the mic frames all land in the preroll queue (or
are dropped while the upstream is not yet open). -/
theorem p12Run_gated (evs : List P12Ev)
    (hnoack : P12Ev.settingsApplied ∉ evs) (hnoaud : P12Ev.upstreamAudio ∉ evs) :
    (p12Run evs).micSent = [] ∧ (p12Run evs).settingsApplied = false := by
  suffices h : ∀ (s : P12State), s.settingsApplied = false → s.micSent = [] →
      ∀ evs : List P12Ev, P12Ev.settingsApplied ∉ evs → P12Ev.upstreamAudio ∉ evs →
        (evs.foldl p12Step s).micSent = [] ∧ (evs.foldl p12Step s).settingsApplied = false by
    exact h p12Init rfl rfl evs hnoack hnoaud
  intro s hap hms evs
  induction evs generalizing s with
  | nil => intro _ _; exact ⟨hms, hap⟩
  | cons e evs ih =>
    intro hnoack hnoaud
    have he1 : e ≠ P12Ev.settingsApplied := fun h => hnoack (h ▸ List.mem_cons_self e evs)
    have he2 : e ≠ P12Ev.upstreamAudio := fun h => hnoaud (h ▸ List.mem_cons_self e evs)
    have h1 : P12Ev.settingsApplied ∉ evs := fun h => hnoack (List.mem_cons_of_mem e h)
    have h2 : P12Ev.upstreamAudio ∉ evs := fun h => hnoaud (List.mem_cons_of_mem e h)
    refine ih (p12Step s e) ?_ ?_ h1 h2 <;> cases e <;> simp_all <;>
      simp only [p12Step, p12Flush] <;> (try split) <;> simp_all

/-- The `clientFrame` step, on any reachable state: the frame is
appended to the upstream audio exactly when both readiness flags hold;
otherwise it is pushed into the capped preroll queue (upstream open) or
dropped outright (upstream not open). -/
theorem p12_clientFrame_cases (s : P12State) (f : List Nat)
    (hinv1 : s.upOpen → s.settingsSent = true)
    (hinv2 : s.settingsApplied → s.upOpen = true) :
    ((p12Step s (.clientFrame f)).micSent = s.micSent ++ [f] ↔
      (s.settingsSent = true ∧ s.settingsApplied = true)) ∧
    (¬(s.settingsSent = true ∧ s.settingsApplied = true) →
      (p12Step s (.clientFrame f)).micSent = s.micSent ∧
      ((p12Step s (.clientFrame f)).preFrames = prerollPush s.preFrames f ∨
        p12Step s (.clientFrame f) = s)) := by
  have hne : ∀ l : List (List Nat), l ≠ l ++ [f] := by
    intro l h
    have := congrArg List.length h
    simp at this
  by_cases hap : s.settingsApplied
  · have hop : s.upOpen = true := hinv2 hap
    have hsent : s.settingsSent = true := hinv1 hop
    have hap' : s.settingsApplied = true := by simpa using hap
    have hstep : p12Step s (.clientFrame f) = { s with micSent := s.micSent ++ [f] } := by
      simp [p12Step, hop, hap']
    constructor
    · rw [hstep]
      simp [hsent, hap']
    · intro hcon
      exact absurd ⟨hsent, hap'⟩ hcon
  · have hap' : s.settingsApplied = false := by simpa using hap
    by_cases hop : s.upOpen
    · have hstep : p12Step s (.clientFrame f)
          = { s with preFrames := prerollPush s.preFrames f } := by
        simp [p12Step, hop, hap']
      rw [hstep]
      constructor
      · constructor
        · intro h
          exact absurd h (hne s.micSent)
        · intro h
          rw [hap'] at h
          cases h.2
      · intro _
        exact ⟨rfl, Or.inl rfl⟩
    · have hop' : s.upOpen = false := by simpa using hop
      have hstep : p12Step s (.clientFrame f) = s := by
        simp [p12Step, hop']
      rw [hstep]
      constructor
      · constructor
        · intro h
          exact absurd h (hne s.micSent)
        · intro h
          rw [hap'] at h
          cases h.2
      · intro _
        exact ⟨rfl, Or.inr rfl⟩

/-- **C1.** Readiness gating in the part_012 `createVoiceBridge`: for
every interleaving of client audio arrival and upstream
open/acknowledgment timing (events `upOpen`, `welcome`,
`settingsApplied`, `clientFrame`), no audio byte reaches the upstream
socket before a `SettingsApplied` event has been classified; and on any
reachable state a mic frame is sent upstream if and only if both the
`settingsSent` and `settingsApplied` flags are true, otherwise it goes
to the capped preroll queue (upstream open) or is dropped (upstream not
open). -/
theorem C1_readiness_gating (evs tr : List P12Ev) (f : List Nat)
    (hnoack : P12Ev.settingsApplied ∉ evs) (hnoaud : P12Ev.upstreamAudio ∉ evs) :
    (p12Run evs).micSent = [] ∧
    (((p12Step (p12Run tr) (.clientFrame f)).micSent = (p12Run tr).micSent ++ [f]) ↔
      ((p12Run tr).settingsSent = true ∧ (p12Run tr).settingsApplied = true)) ∧
    (¬((p12Run tr).settingsSent = true ∧ (p12Run tr).settingsApplied = true) →
      (p12Step (p12Run tr) (.clientFrame f)).micSent = (p12Run tr).micSent ∧
      ((p12Step (p12Run tr) (.clientFrame f)).preFrames
          = prerollPush (p12Run tr).preFrames f ∨
        p12Step (p12Run tr) (.clientFrame f) = p12Run tr)) := by
  obtain ⟨hinv1, hinv2⟩ := p12Run_invariant tr
  obtain ⟨hc1, hc2⟩ := p12_clientFrame_cases (p12Run tr) f hinv1 hinv2
  exact ⟨(p12Run_gated evs hnoack hnoaud).1, hc1, hc2⟩

/-- Witness for C1 at a concrete input: the trace "upstream open, then a
mic frame" contains no acknowledgment and no upstream audio, and leaves
the upstream audio path empty (the frame sits in the preroll queue). -/
theorem C1_readiness_gating_witness :
    P12Ev.settingsApplied ∉ [P12Ev.upOpen, P12Ev.clientFrame [1, 2]] ∧
    P12Ev.upstreamAudio ∉ [P12Ev.upOpen, P12Ev.clientFrame [1, 2]] ∧
    (p12Run [P12Ev.upOpen, P12Ev.clientFrame [1, 2]]).micSent = [] := by
  refine ⟨by decide, by decide, ?_⟩
  exact (C1_readiness_gating [P12Ev.upOpen, P12Ev.clientFrame [1, 2]] [] []
    (by decide) (by decide)).1

/-! ## The barge-in-gating variant (src/unnamed/part_008, web-demo-live.cjs)

Per-connection machine for the variant that gates the microphone until
the greeting has finished.  Events:

* `upOpen` — `agentWS.on("open")` (lines 347-361): sends a
  `SystemMessage` (control, not audio) and `sendSettings()`;
* `welcome` — classified `Welcome` (lines 380-383): `sendSettings()`;
* `settingsApplied` — classified `SettingsApplied` (lines 385-392): sets
  `settingsApplied = true`, *gates the mic* (`allowMicToDG = false`) and
  starts the silence pump; the queued preroll frames are deliberately
  not flushed ("we keep them dropped until greeting ends");
* `greetingDone` — the 100 ms `stateTimer` tick observing that upstream
  TTS has been silent for 300 ms (lines 444-458): stops the silence pump
  and opens the mic gate (`allowMicToDG = true`);
* `silenceTick` — the 20 ms silence pump tick (lines 293-301): sends one
  zeroed frame upstream while the pump is active and the upstream open
  (counted in `silenceSent`; these are synthesized silence, not mic
  audio);
* `clientChunk c` — a binary mic message (lines 491-513): returns
  immediately when the upstream is not open; otherwise reassembles
  640-byte frames and, per frame, queues to the capped preroll
  (`!settingsSent || !settingsApplied`), sends upstream
  (`allowMicToDG`), or silently drops it (still greeting).

`micSent` records every real mic frame delivered to the upstream
socket, in order. -/
structure P8State where
  upOpen : Bool
  settingsSent : Bool
  settingsApplied : Bool
  allowMicToDG : Bool
  silenceOn : Bool
  micBuf : List Nat
  preFrames : List (List Nat)
  micSent : List (List Nat)
  silenceSent : Nat
  deriving Repr, DecidableEq

def p8Init : P8State :=
  { upOpen := false, settingsSent := false, settingsApplied := false,
    allowMicToDG := false, silenceOn := false,
    micBuf := [], preFrames := [], micSent := [], silenceSent := 0 }

inductive P8Ev where
  | upOpen
  | welcome
  | settingsApplied
  | greetingDone
  | silenceTick
  | clientChunk (c : List Nat)
  deriving Repr, DecidableEq

def p8Step (s : P8State) : P8Ev → P8State
  | .upOpen => { s with upOpen := true, settingsSent := true }
  | .welcome => if s.upOpen then { s with settingsSent := true } else s
  | .settingsApplied =>
      if s.upOpen then
        { s with settingsApplied := true, allowMicToDG := false, silenceOn := true }
      else s
  | .greetingDone => { s with silenceOn := false, allowMicToDG := true }
  | .silenceTick =>
      if s.silenceOn && s.upOpen then { s with silenceSent := s.silenceSent + 1 } else s
  | .clientChunk c =>
      if s.upOpen then
        let p := sliceFrames BYTES_PER_FRAME (s.micBuf ++ c)
        if !s.settingsSent || !s.settingsApplied then
          { s with micBuf := p.2, preFrames := prerollPushAll s.preFrames p.1 }
        else if s.allowMicToDG then
          { s with micBuf := p.2, micSent := s.micSent ++ p.1 }
        else
          { s with micBuf := p.2 }
      else s

def p8Run (evs : List P8Ev) : P8State := evs.foldl p8Step p8Init

/-- In the barge-in variant, `micSent` grows only on a `clientChunk`
step taken in a state where the mic gate is already open (all of
`upOpen`, `settingsSent`, `settingsApplied`, `allowMicToDG`); in every
other case it is unchanged, and no step ever transfers the preroll
queue into `micSent`. -/
theorem p8Step_micSent_cases (s : P8State) (e : P8Ev) :
    (p8Step s e).micSent = s.micSent ∨
    (∃ c, e = .clientChunk c ∧
      s.upOpen = true ∧ s.settingsSent = true ∧ s.settingsApplied = true ∧
      s.allowMicToDG = true ∧
      (p8Step s e).micSent
        = s.micSent ++ (sliceFrames BYTES_PER_FRAME (s.micBuf ++ c)).1 ∧
      (p8Step s e).preFrames = s.preFrames) := by
  cases e with
  | upOpen => left; simp [p8Step]
  | welcome => left; by_cases h : s.upOpen <;> simp [p8Step, h]
  | settingsApplied => left; by_cases h : s.upOpen <;> simp [p8Step, h]
  | greetingDone => left; simp [p8Step]
  | silenceTick => left; by_cases h : s.silenceOn && s.upOpen <;> simp [p8Step, h]
  | clientChunk c =>
    by_cases hop : s.upOpen
    · by_cases hqueue : !s.settingsSent || !s.settingsApplied
      · left; simp [p8Step, hop, hqueue]
      · by_cases hmic : s.allowMicToDG
        · right
          refine ⟨c, rfl, by simpa using hop, ?_, ?_, by simpa using hmic, ?_, ?_⟩ <;>
            simp only [Bool.not_eq_true', Bool.or_eq_true, not_or] at hqueue <;>
            simp [p8Step, hop, hmic, hqueue.1, hqueue.2]
        · left; simp [p8Step, hop, hqueue, hmic]
    · left; simp [p8Step, hop]

/-- Until a `greetingDone` tick of the greeting-finish detector occurs,
the mic gate stays shut and no mic frame is ever sent upstream. -/
theorem p8Run_gated (evs : List P8Ev) (hno : P8Ev.greetingDone ∉ evs) :
    (p8Run evs).micSent = [] ∧ (p8Run evs).allowMicToDG = false := by
  suffices h : ∀ (s : P8State), s.allowMicToDG = false → s.micSent = [] →
      ∀ evs : List P8Ev, P8Ev.greetingDone ∉ evs →
        (evs.foldl p8Step s).micSent = [] ∧ (evs.foldl p8Step s).allowMicToDG = false by
    exact h p8Init rfl rfl evs hno
  intro s hmic hms evs
  induction evs generalizing s with
  | nil => intro _; exact ⟨hms, hmic⟩
  | cons e evs ih =>
    intro hno
    have he : e ≠ P8Ev.greetingDone := fun h => hno (h ▸ List.mem_cons_self e evs)
    have h1 : P8Ev.greetingDone ∉ evs := fun h => hno (List.mem_cons_of_mem e h)
    refine ih (p8Step s e) ?_ ?_ h1 <;> cases e <;> simp_all <;>
      simp only [p8Step] <;> (try split) <;> (try split) <;> simp_all

/-- **C10.** Barge-in gating in the part_008 variant: the
`SettingsApplied` handler gates the mic and starts the silence pump
instead of draining the preroll queue (the queue and the upstream audio
are untouched by the acknowledgment); `micSent` grows only on a client
chunk arriving with the gate already open, and then only by the new
frames, never by draining the preroll queue; a chunk arriving after
acknowledgment but before the greeting-finish detector opens the gate
is dropped (only its residual bytes are buffered); and on any trace
without a `greetingDone` detector tick nothing is ever sent on the
upstream mic path. -/
theorem C10_barge_in_gating (s : P8State) (e : P8Ev) (c : List Nat)
    (evs : List P8Ev)
    (hop : s.upOpen = true) (hno : P8Ev.greetingDone ∉ evs) :
    (p8Step s .settingsApplied =
      { s with settingsApplied := true, allowMicToDG := false, silenceOn := true }) ∧
    ((p8Step s e).micSent = s.micSent ∨
      (∃ c', e = .clientChunk c' ∧
        s.upOpen = true ∧ s.settingsSent = true ∧ s.settingsApplied = true ∧
        s.allowMicToDG = true ∧
        (p8Step s e).micSent
          = s.micSent ++ (sliceFrames BYTES_PER_FRAME (s.micBuf ++ c')).1 ∧
        (p8Step s e).preFrames = s.preFrames)) ∧
    (s.settingsSent = true → s.settingsApplied = true → s.allowMicToDG = false →
      p8Step s (.clientChunk c)
        = { s with micBuf := (sliceFrames BYTES_PER_FRAME (s.micBuf ++ c)).2 }) ∧
    (p8Run evs).micSent = [] := by
  refine ⟨by simp [p8Step, hop], p8Step_micSent_cases s e, ?_, (p8Run_gated evs hno).1⟩
  intro hsent hap hmic
  simp [p8Step, hop, hsent, hap, hmic]

/-- Witness for C10 at a concrete input: an open, acknowledged, gated
connection; the trace "open, acknowledge, one mic chunk" contains no
detector tick and delivers no mic audio upstream. -/
theorem C10_barge_in_gating_witness :
    ({ upOpen := true, settingsSent := true, settingsApplied := true,
       allowMicToDG := false, silenceOn := true, micBuf := [],
       preFrames := [[5]], micSent := [], silenceSent := 0 } : P8State).upOpen = true ∧
    P8Ev.greetingDone ∉ [P8Ev.upOpen, P8Ev.settingsApplied, P8Ev.clientChunk [1]] ∧
    (p8Run [P8Ev.upOpen, P8Ev.settingsApplied, P8Ev.clientChunk [1]]).micSent = [] := by
  refine ⟨by decide, by decide, ?_⟩
  exact (C10_barge_in_gating
    { upOpen := true, settingsSent := true, settingsApplied := true,
      allowMicToDG := false, silenceOn := true, micBuf := [],
      preFrames := [[5]], micSent := [], silenceSent := 0 }
    P8Ev.silenceTick [1] [P8Ev.upOpen, P8Ev.settingsApplied, P8Ev.clientChunk [1]]
    (by decide) (by decide)).2.2.2

/-! ## Idempotent teardown (src/index.cjs lines 173-178, src/unnamed/part_012 line 261)

src/index.cjs guards `safeClose` with a `closed` flag:

    function safeClose() {
      if (closed) return;
      closed = true;
      try { dgWS.close(1000); } catch {}
      try { serverWS.close(1000); } catch {}
    }

part_012's `safeClose` has no flag, but `ws`'s `WebSocket.close()` is
itself a no-op once the socket is CLOSING or CLOSED, which we model in
`wsClose`. -/

/-- One `ws` socket: whether `close()` has been initiated, and how many
times an actual close was performed on the wire.  `WebSocket.close()`
on a socket that is already CLOSING/CLOSED does nothing. -/
structure Sock where
  closing : Bool
  closeCount : Nat
  deriving Repr, DecidableEq

def wsClose (s : Sock) : Sock :=
  if s.closing then s else { closing := true, closeCount := s.closeCount + 1 }

/-- Teardown state of one connection in `src/index.cjs`
`createVoiceBridge`: the `closed` flag plus the two sockets. -/
structure TeardownState where
  closed : Bool
  dgWS : Sock
  serverWS : Sock
  deriving Repr, DecidableEq

def teardownInit : TeardownState :=
  { closed := false, dgWS := ⟨false, 0⟩, serverWS := ⟨false, 0⟩ }

/-- `safeClose` of src/index.cjs lines 173-178. -/
def safeClose (s : TeardownState) : TeardownState :=
  if s.closed then s
  else { closed := true, dgWS := wsClose s.dgWS, serverWS := wsClose s.serverWS }

/-- `safeClose` of part_012 line 261 (no `closed` flag): it simply
closes both sockets; idempotence comes from `wsClose` itself. -/
def safeClose012 (p : Sock × Sock) : Sock × Sock :=
  (wsClose p.1, wsClose p.2)

theorem wsClose_idem (s : Sock) : wsClose (wsClose s) = wsClose s := by
  unfold wsClose
  by_cases h : s.closing <;> simp [h]

/-- **C5.** Idempotent teardown: in both teardown variants
(`src/index.cjs` `safeClose` with its `closed` guard, and part_012's
unguarded `safeClose` over `ws` close semantics), invoking the teardown
routine twice has exactly the effect of invoking it once, and starting
from a live connection each underlying socket ends up closed exactly
once — no double close is ever performed. -/
theorem C5_idempotent_teardown (s : TeardownState) (p : Sock × Sock) :
    safeClose (safeClose s) = safeClose s ∧
    safeClose012 (safeClose012 p) = safeClose012 p ∧
    (safeClose (safeClose teardownInit)).dgWS.closeCount = 1 ∧
    (safeClose (safeClose teardownInit)).serverWS.closeCount = 1 ∧
    (safeClose012 (safeClose012 (⟨false, 0⟩, ⟨false, 0⟩))).1.closeCount = 1 ∧
    (safeClose012 (safeClose012 (⟨false, 0⟩, ⟨false, 0⟩))).2.closeCount = 1 := by
  refine ⟨?_, ?_, by decide, by decide, by decide, by decide⟩
  · unfold safeClose
    by_cases h : s.closed <;> simp [h]
  · unfold safeClose012
    rw [wsClose_idem, wsClose_idem]

/-! ## Upstream message classification (src/lib/web-demo-live.cjs lines 214-275)

    upstream.on("message", (data) => {
      const isBuf = Buffer.isBuffer(data);
      if (!isBuf || (isBuf && data.length && data[0] === 0x7b)) {
        let evt = null; try { evt = JSON.parse(isBuf ? data.toString("utf8") : data); } catch {}
        if (!evt) return;
        switch (evt.type) { ... }
        try { client.send(isBuf ? data.toString("utf8") : data); } catch {}
        return;
      }
      try { client.send(data, { binary: true }); } catch {}
    });

`JSON.parse` and UTF-8 decoding are external library functions; they are
parameters of the model.  `parse s = none` covers both a parse exception
and a successfully parsed falsy value (`null`, `0`, `""`), since either
way `evt` stays falsy and the handler returns without emitting
anything. -/

/-- Generic character-list helpers shared by the classifier and the
shadow-intake extractor. -/
def startsWithAt (s p : List Char) (i : Nat) : Bool :=
  decide ((s.drop i).take p.length = p)

/-- `String.prototype.includes(p)`: some occurrence of `p` in `s`. -/
def containsSub (s p : List Char) : Bool :=
  (List.range (s.length + 1)).any (fun i => startsWithAt s p i)

/-- A parsed upstream JSON control event, with exactly the dynamic
fields the bridges read (`evt.type`, `evt.role`/`speaker`/`actor`,
`evt.content`/`text`/`transcript`/`message`, `evt.description`,
`evt.final`/`is_final`/`status`).  A missing property is `none`. -/
structure Evt where
  type : String
  role : Option String := none
  speaker : Option String := none
  actor : Option String := none
  content : Option String := none
  text : Option String := none
  transcript : Option String := none
  message : Option String := none
  description : Option String := none
  final : Option Bool := none
  is_final : Option Bool := none
  status : Option String := none
  deriving Repr, DecidableEq

/-- A raw message delivered by the `ws` library on the upstream socket. -/
inductive UpMsg where
  | text (s : String)
  | bin (bs : List Nat)
  deriving Repr, DecidableEq

inductive WdlClass where
  | audio (bs : List Nat)
  | event (e : Evt)
  | discarded
  deriving Repr, DecidableEq

/-- The discrimination of src/lib/web-demo-live.cjs lines 214-220:
a message goes to the JSON branch when it is a string, or a buffer that
is nonempty and starts with `0x7b` (ASCII `\x7b`); there `JSON.parse`
runs and a falsy/failed result is discarded.  Every other message is
audio payload. -/
def wdlClassify (parse : String → Option Evt) (decode : List Nat → String) :
    UpMsg → WdlClass
  | .text s =>
      match parse s with
      | some e => .event e
      | none => .discarded
  | .bin bs =>
      if bs ≠ [] ∧ bs.head? = some 0x7b then
        match parse (decode bs) with
        | some e => .event e
        | none => .discarded
      else .audio bs

/-- A message the bridge can send to the client socket. -/
inductive ClientMsg where
  | stateMsg (st : String)
  | transcriptMsg (role : String) (txt : String) (notFinal : Bool)
  | transcriptPayload (e : Evt)
  | statusMsg (t : String)
  | errorMsg (m : String)
  | errorEvt (e : Evt)
  | settingsMsg
  | rawRelay (raw : String)
  | audio (bs : List Nat)
  deriving Repr, DecidableEq

/-- A JS `a || b || ... || ""` chain over string-valued properties: the
first present *and nonempty* value wins (an empty string is falsy). -/
def jsStringOr : List (Option String) → String
  | [] => ""
  | some v :: rest => if v = "" then jsStringOr rest else v
  | none :: rest => jsStringOr rest

/-- A JS `a ?? b ?? ... ?? ""` chain: the first present value wins, even
when it is the empty string. -/
def jsCoalesce : List (Option String) → String
  | [] => ""
  | some v :: _ => v
  | none :: rest => jsCoalesce rest

/-- `String(evt.role || evt.speaker || evt.actor || "").toLowerCase()`. -/
def evtRole (e : Evt) : String := (jsStringOr [e.role, e.speaker, e.actor]).toLower

/-- `String(evt.content ?? evt.text ?? evt.transcript ?? evt.message ?? "").trim()`. -/
def evtText (e : Evt) : String := (jsCoalesce [e.content, e.text, e.transcript, e.message]).trim

/-- `evt.final === true || evt.is_final === true || evt.status === "final" || evt.type === "UserResponse"`. -/
def evtIsFinal (e : Evt) : Bool :=
  e.final = some true ∨ e.is_final = some true ∨ e.status = some "final" ∨ e.type = "UserResponse"

/-- `roleRaw.includes("agent") || roleRaw.includes("assistant") ? "Agent" : "User"`. -/
def roleBucket (r : String) : String :=
  if containsSub r.data "agent".data || containsSub r.data "assistant".data then "Agent"
  else "User"

/-- `evt.message || "unknown"`. -/
def evtMessageOr (e : Evt) : String :=
  let m := jsStringOr [e.message]
  if m = "" then "unknown" else m

/-- `evt.description || evt.message || "unknown"`. -/
def evtDescriptionOr (e : Evt) : String :=
  let m := jsStringOr [e.description, e.message]
  if m = "" then "unknown" else m

/-- Wire tags handled by the transcript-ish case of
src/lib/web-demo-live.cjs (lines 239-248). -/
def wdlTranscriptTags : List String :=
  ["ConversationText", "UserTranscript", "UserResponse", "Transcript",
   "PartialTranscript", "AgentTranscript", "AgentResponse",
   "AddUserMessage", "AddAssistantMessage", "AddPartialTranscript"]

/-- Every tag with a `case` in the src/lib/web-demo-live.cjs switch. -/
def wdlHandledTags : List String :=
  ["Welcome", "SettingsApplied"] ++ wdlTranscriptTags ++ ["AgentWarning", "AgentError", "Error"]

/-- Client-bound emissions of the JSON branch of the
src/lib/web-demo-live.cjs upstream `message` handler (lines 222-270) on
a successfully parsed event: the switch may emit a normalized message,
and afterwards the raw JSON is always relayed verbatim to the browser
log pane ("Always relay the raw JSON to the browser log pane as well",
line 268). -/
def wdlHandleEvt (settingsSent : Bool) (raw : String) (e : Evt) : List ClientMsg :=
  (if e.type = "Welcome" then
    -- sendSettings(): only if not yet sent; it then reports a `settings` summary
    if settingsSent then [] else [ClientMsg.settingsMsg]
  else if e.type = "SettingsApplied" then []
  else if e.type ∈ wdlTranscriptTags then
    let txt := evtText e
    if txt = "" then []
    else [ClientMsg.transcriptMsg (roleBucket (evtRole e)) txt (!evtIsFinal e)]
  else if e.type = "AgentWarning" then
    [ClientMsg.statusMsg ("Agent warning: " ++ evtMessageOr e)]
  else if e.type = "AgentError" ∨ e.type = "Error" then
    [ClientMsg.statusMsg ("Agent error: " ++ evtDescriptionOr e)]
  else []) ++ [ClientMsg.rawRelay raw]

/-- The raw text that would be relayed for a message
(`isBuf ? data.toString("utf8") : data`). -/
def rawOf (decode : List Nat → String) : UpMsg → String
  | .text s => s
  | .bin bs => decode bs

/-- All client-bound emissions of one upstream `message` callback in
src/lib/web-demo-live.cjs. -/
def wdlUpEmissions (parse : String → Option Evt) (decode : List Nat → String)
    (settingsSent : Bool) (m : UpMsg) : List ClientMsg :=
  match wdlClassify parse decode m with
  | .audio bs => [ClientMsg.audio bs]
  | .event e => wdlHandleEvt settingsSent (rawOf decode m) e
  | .discarded => []

/-- Wire tags handled by the transcript-ish case of the part_012
`createVoiceBridge` switch (lines 199-209). -/
def p12TranscriptTags : List String :=
  ["Transcript", "UserTranscript", "ConversationText", "History", "UserResponse",
   "AgentTranscript", "AgentResponse", "PartialTranscript", "AddPartialTranscript",
   "AddUserMessage", "AddAssistantMessage"]

/-- Every tag with a `case` in the part_012 `createVoiceBridge` switch
(lines 182-224). -/
def p12HandledTags : List String :=
  ["Welcome", "SettingsApplied", "UserStartedSpeaking", "AgentStartedSpeaking",
   "AgentStoppedSpeaking"] ++ p12TranscriptTags ++ ["Error", "AgentError"]

/-- Client-bound emissions of the part_012 `createVoiceBridge` event
switch (lines 179-227) on a parsed event.  `Welcome` re-runs
`sendSettings()`, which reports `state: Connected` to the client only
when the settings had not been sent yet; the `default` arm only logs at
debug level and emits nothing. -/
def p12HandleEvt (settingsSent : Bool) (e : Evt) : List ClientMsg :=
  if e.type = "Welcome" then
    if settingsSent then [] else [ClientMsg.stateMsg "Connected"]
  else if e.type = "SettingsApplied" then [ClientMsg.stateMsg "Listening"]
  else if e.type = "UserStartedSpeaking" then [ClientMsg.stateMsg "Listening"]
  else if e.type = "AgentStartedSpeaking" then [ClientMsg.stateMsg "Speaking"]
  else if e.type = "AgentStoppedSpeaking" then [ClientMsg.stateMsg "Listening"]
  else if e.type ∈ p12TranscriptTags then [ClientMsg.transcriptPayload e]
  else if e.type = "Error" ∨ e.type = "AgentError" then [ClientMsg.errorEvt e]
  else []

/-- **C6.** Message discrimination and malformed-message recovery in
src/lib/web-demo-live.cjs (lines 214-220): an inbound upstream message
is treated as audio payload exactly when it is binary-framed and its
first byte is not ASCII `\x7b` (an empty binary frame has no such
byte and is audio); every other message goes through `JSON.parse`; and
whenever that parse fails the message is silently discarded — the
classifier yields `discarded` and the handler emits nothing to the
client (the handler is a total function, so no exception propagates and
the connection continues). -/
theorem C6_discrimination_and_recovery (parse : String → Option Evt)
    (decode : List Nat → String) (settingsSent : Bool) (m : UpMsg) :
    (∀ bs, wdlClassify parse decode m = WdlClass.audio bs ↔
      (m = UpMsg.bin bs ∧ (bs = [] ∨ bs.head? ≠ some 0x7b))) ∧
    (∀ s, m = UpMsg.text s → parse s = none →
      wdlClassify parse decode m = WdlClass.discarded) ∧
    (∀ bs, m = UpMsg.bin bs → bs ≠ [] → bs.head? = some 0x7b →
      parse (decode bs) = none → wdlClassify parse decode m = WdlClass.discarded) ∧
    (wdlClassify parse decode m = WdlClass.discarded →
      wdlUpEmissions parse decode settingsSent m = []) := by
  refine ⟨?_, ?_, ?_, ?_⟩
  · intro bs
    cases m with
    | text s =>
      constructor
      · intro h
        simp only [wdlClassify] at h
        cases hp : parse s <;> rw [hp] at h <;> cases h
      · intro ⟨h, _⟩; cases h
    | bin l =>
      by_cases hjson : l ≠ [] ∧ l.head? = some 0x7b
      · constructor
        · intro h
          simp only [wdlClassify, if_pos hjson] at h
          cases hp : parse (decode l) <;> rw [hp] at h <;> cases h
        · intro ⟨heq, hcase⟩
          cases heq
          rcases hcase with h | h
          · exact absurd h hjson.1
          · exact absurd hjson.2 h
      · constructor
        · intro h
          simp only [wdlClassify, if_neg hjson] at h
          have hbl : l = bs := by injection h
          constructor
          · rw [hbl]
          · rw [← hbl]
            by_cases hnil : l = []
            · exact Or.inl hnil
            · exact Or.inr (fun hh => hjson ⟨hnil, hh⟩)
        · intro ⟨heq, _⟩
          cases heq
          simp only [wdlClassify, if_neg hjson]
  · intro s hm hp
    cases hm
    simp only [wdlClassify, hp]
  · intro bs hm hne hhead hp
    cases hm
    simp only [wdlClassify, if_pos (And.intro hne hhead), hp]
  · intro h
    simp only [wdlUpEmissions, h]

/-- Witness for C6 at concrete inputs: with a parser that rejects
everything, an unparseable text frame is discarded and produces no
client emission, while the binary frame `[0, 1]` is classified as
audio. -/
theorem C6_discrimination_and_recovery_witness :
    (UpMsg.text "not json" = UpMsg.text "not json") ∧
    ((fun _ : String => (none : Option Evt)) "not json" = none) ∧
    wdlClassify (fun _ => none) (fun _ => "") (UpMsg.text "not json") = WdlClass.discarded ∧
    wdlUpEmissions (fun _ => none) (fun _ => "") true (UpMsg.text "not json") = [] ∧
    wdlClassify (fun _ => none) (fun _ => "") (UpMsg.bin [0, 1]) = WdlClass.audio [0, 1] := by
  have h := C6_discrimination_and_recovery (fun _ => none) (fun _ => "") true
    (UpMsg.text "not json")
  have hdisc := h.2.1 "not json" rfl rfl
  refine ⟨rfl, rfl, hdisc, h.2.2.2 hdisc, ?_⟩
  have h2 := C6_discrimination_and_recovery (fun _ => none) (fun _ => "") true
    (UpMsg.bin [0, 1])
  exact ((h2.1 [0, 1]).mpr ⟨rfl, Or.inr (by decide)⟩)

/-- **C7 counterexample.** The claim "an upstream control event whose
wire tag is not in the mapping table produces no client-visible event"
is false for src/lib/web-demo-live.cjs: its upstream handler always
relays every successfully parsed JSON event verbatim to the client
("Always relay the raw JSON to the browser log pane as well", lines
268-269), so a parsed event with the unlisted tag `SomethingElse`
produces a client-visible message. -/
theorem C7_counterexample :
    ("SomethingElse" ∉ wdlHandledTags) ∧
    wdlHandleEvt true "rawtext" { type := "SomethingElse" } = [ClientMsg.rawRelay "rawtext"] ∧
    wdlHandleEvt true "rawtext" { type := "SomethingElse" } ≠ [] := by
  refine ⟨by decide, by decide, by decide⟩

/-- **C7 (amended).** Unlisted-tag discard, as the code actually
behaves: in the `createVoiceBridge` switch of part_012 (lines 179-227,
same shape in src/index.cjs), an event whose wire tag has no `case`
produces no client-visible message at all — the `default` arm only logs
at debug level; in src/lib/web-demo-live.cjs an unlisted tag produces no
normalized event either, but the handler does relay the raw JSON text
verbatim to the client (it does so for every parsed event), so the only
client-visible output for an unlisted tag there is that verbatim
relay. -/
theorem C7_unlisted_tag_discard (sent : Bool) (raw : String) (e e' : Evt)
    (h12 : e.type ∉ p12HandledTags) (hwdl : e'.type ∉ wdlHandledTags) :
    p12HandleEvt sent e = [] ∧
    wdlHandleEvt sent raw e' = [ClientMsg.rawRelay raw] := by
  constructor
  · have hsub : ∀ x ∈ p12TranscriptTags, x ∈ p12HandledTags := by decide
    have hmem : e.type ∉ p12TranscriptTags := fun h => h12 (hsub _ h)
    have hW : e.type ≠ "Welcome" := fun h => h12 (by rw [h]; decide)
    have hSA : e.type ≠ "SettingsApplied" := fun h => h12 (by rw [h]; decide)
    have hUS : e.type ≠ "UserStartedSpeaking" := fun h => h12 (by rw [h]; decide)
    have hAS : e.type ≠ "AgentStartedSpeaking" := fun h => h12 (by rw [h]; decide)
    have hASt : e.type ≠ "AgentStoppedSpeaking" := fun h => h12 (by rw [h]; decide)
    have hErr : ¬(e.type = "Error" ∨ e.type = "AgentError") := fun h => by
      rcases h with h | h
      · exact h12 (by rw [h]; decide)
      · exact h12 (by rw [h]; decide)
    unfold p12HandleEvt
    rw [if_neg hW, if_neg hSA, if_neg hUS, if_neg hAS, if_neg hASt, if_neg hmem, if_neg hErr]
  · have hsub : ∀ x ∈ wdlTranscriptTags, x ∈ wdlHandledTags := by decide
    have hmem : e'.type ∉ wdlTranscriptTags := fun h => hwdl (hsub _ h)
    have hW : e'.type ≠ "Welcome" := fun h => hwdl (by rw [h]; decide)
    have hSA : e'.type ≠ "SettingsApplied" := fun h => hwdl (by rw [h]; decide)
    have hAW : e'.type ≠ "AgentWarning" := fun h => hwdl (by rw [h]; decide)
    have hErr : ¬(e'.type = "AgentError" ∨ e'.type = "Error") := fun h => by
      rcases h with h | h
      · exact hwdl (by rw [h]; decide)
      · exact hwdl (by rw [h]; decide)
    unfold wdlHandleEvt
    rw [if_neg hW, if_neg hSA, if_neg hmem, if_neg hAW, if_neg hErr]
    rfl

/-- Witness for the amended C7 at a concrete input: the unlisted tag
`SomethingElse` yields no client message in the part_012 bridge and
only the raw relay in web-demo-live. -/
theorem C7_unlisted_tag_discard_witness :
    ({ type := "SomethingElse" } : Evt).type ∉ p12HandledTags ∧
    ({ type := "SomethingElse" } : Evt).type ∉ wdlHandledTags ∧
    p12HandleEvt false { type := "SomethingElse" } = [] := by
  refine ⟨by decide, by decide, ?_⟩
  exact (C7_unlisted_tag_discard false "r" { type := "SomethingElse" }
    { type := "SomethingElse" } (by decide) (by decide)).1

/-! ## Missing-credential failure (src/lib/web-demo-live.cjs lines 94-125)

    wss.on("connection", (client, req) => {
      ...
      if (!DG_KEY) {
        const msg = "Deepgram API key missing (set DG_API_KEY or DEEPGRAM_API_KEY)";
        try { client.send(JSON.stringify({ type: "error", error: { message: msg } })); } catch {}
        client.close(1011, "Missing DG API key");
        return;
      }
      ... // headers, upstreamUrl
      const upstream = new WS(upstreamUrl, { headers });   // only reached with a key
      ...
    });

`DG_KEY = process.env.DG_API_KEY || process.env.DEEPGRAM_API_KEY || ""`
is the empty string when the credential is absent, and `!DG_KEY` is then
true.  The upstream socket constructor (line 125) lies after the early
`return`, so on the refused path no upstream connection attempt exists
at all. -/

inductive ConnStart where
  | refused (clientMsgs : List ClientMsg) (closeCode : Nat) (closeReason : String)
  | bridged (s : WdlState)
  deriving Repr, DecidableEq

/-- What `wss.on("connection")` does before any message flows: refuse
with an `error` event and close code 1011 when the key is missing,
otherwise construct the upstream socket and enter the bridge machine in
its initial state. -/
def wdlConnStart (dgKey : String) : ConnStart :=
  if dgKey = "" then
    .refused
      [ClientMsg.errorMsg "Deepgram API key missing (set DG_API_KEY or DEEPGRAM_API_KEY)"]
      1011 "Missing DG API key"
  else .bridged wdlInit

/-- **C8.** Missing-credential failure: a client connection accepted
while the Deepgram API key is absent (empty) immediately receives one
structured `error` event, its socket is closed with code 1011 and
reason "Missing DG API key", and the connection is never bridged — no
upstream connection attempt is made, so the connection never reaches
`Open` and no audio is exchanged. -/
theorem C8_missing_credential (dgKey : String) (h : dgKey = "") :
    wdlConnStart dgKey =
      ConnStart.refused
        [ClientMsg.errorMsg "Deepgram API key missing (set DG_API_KEY or DEEPGRAM_API_KEY)"]
        1011 "Missing DG API key" ∧
    (∀ s : WdlState, wdlConnStart dgKey ≠ ConnStart.bridged s) := by
  subst h
  refine ⟨by rfl, ?_⟩
  intro s hcon
  simp only [wdlConnStart, if_pos rfl] at hcon
  cases hcon

/-- Witness for C8 at the concrete input: the empty key is refused and
never bridged. -/
theorem C8_missing_credential_witness :
    ("" : String) = "" ∧
    wdlConnStart "" ≠ ConnStart.bridged wdlInit :=
  ⟨rfl, (C8_missing_credential "" rfl).2 wdlInit⟩

/-! ## Shadow intake extractor (src/app/page.tsx lines 300-402, the
embedded lib/shadow-intake.cjs module)

The extraction helpers are JavaScript regular expressions; each Lean
function below is a direct operational rendering of one regex, with the
regex quoted in the doc comment.  JS word characters are `[A-Za-z0-9_]`,
`.` matches anything except line terminators, and matching is
leftmost-first with greedy quantifiers; where a quantifier could
backtrack we note why the rendered search is equivalent.  Characters are
treated ASCII-wise (`toLowerCase`, `\s`, `\b`), which covers every string
the extractors are specified on. -/

/-- ASCII apostrophe (avoiding a quote-escape in source). -/
def apos : Char := Char.ofNat 39

/-- JS `\w`: `[A-Za-z0-9_]`. -/
def wordCharB (c : Char) : Bool := c.isAlphanum || c == '_'

/-- JS `\b` on the left of position `i`: start of input or a non-word
character before `i` (the pattern character at `i` being a word
character). -/
def leftBoundary (s : List Char) (i : Nat) : Bool :=
  i == 0 || !wordCharB (s.getD (i - 1) ' ')

/-- JS `\b` on the right of position `i` (exclusive end of a match whose
last character is a word character): end of input or a non-word
character at `i`. -/
def rightBoundary (s : List Char) (i : Nat) : Bool :=
  i == s.length || !wordCharB (s.getD i ' ')

/-- Occurrence of the literal `p` at position `i` with `\b` on both
sides. -/
def wordAt (s p : List Char) (i : Nat) : Bool :=
  startsWithAt s p i && leftBoundary s i && rightBoundary s (i + p.length)

/-- `\bp\b` tested anywhere in `s` (`RegExp.test` semantics). -/
def containsWord (s p : List Char) : Bool :=
  (List.range (s.length + 1)).any (wordAt s p)

/-- JS `.` without the `s` flag: any character except a line
terminator. -/
def dotChar (c : Char) : Bool := c != '\n' && c != '\r'

/-- `\bp.*q\b` tested anywhere in `s`: `p` with a left boundary, then
any non-newline gap, then `q` ending with a right boundary. -/
def seqWordMatch (s p q : List Char) : Bool :=
  (List.range (s.length + 1)).any fun i =>
    startsWithAt s p i && leftBoundary s i &&
    ((List.range (s.length + 1)).any fun j =>
      decide (i + p.length ≤ j) && startsWithAt s q j && rightBoundary s (j + q.length) &&
      ((s.drop (i + p.length)).take (j - (i + p.length))).all dotChar)

/-- `const s = (t||'').toLowerCase();`
`if (/\b(existing|current|already.*client)\b/.test(s)) return 'existing';`
`if (/\b(new|potential|not.*client|accident|injury|case)\b/.test(s)) return 'new';`
`return null;` -/
def extractClientType (t : String) : Option String :=
  let s := t.toLower.data
  if containsWord s "existing".data || containsWord s "current".data ||
      seqWordMatch s "already".data "client".data then some "existing"
  else if containsWord s "new".data || containsWord s "potential".data ||
      seqWordMatch s "not".data "client".data || containsWord s "accident".data ||
      containsWord s "injury".data || containsWord s "case".data then some "new"
  else none

/-- `[^\d\+]` removal: keep digits and `+`. -/
def isPhoneChar (c : Char) : Bool := c.isDigit || c == '+'

/-- Leftmost match of `/(?:\+1)?(\d{10})$/` on a digits-and-plus string:
scanning positions left to right, the whole remaining suffix must be
either `+1` followed by exactly ten digits, or exactly ten digits (the
`$` anchor forces the match to consume the entire suffix; the optional
`+1` is tried first, as the regex engine does). -/
def phoneScan : List Char → Option (List Char)
  | [] => none
  | c :: cs =>
      if c == '+' && cs.length == 11 && decide (cs.take 1 = ['1'])
          && (cs.drop 1).all Char.isDigit then
        some (c :: cs)
      else if (c :: cs).length == 10 && (c :: cs).all Char.isDigit then
        some (c :: cs)
      else phoneScan cs

/-- `m[0].replace(/(\d{1,2})(\d{3})(\d{3})(\d{4})/, (x,c,a,b,d) => ...)`:
the replace regex needs at least 11 consecutive digits, so a bare
ten-digit match is returned unchanged; a `+1`-prefixed match has an
eleven-digit run starting at index 1, the backtracked groups are
`c="1"`, `a`, `b`, `d`, the callback yields `+1 a-b-d` (the `x.length
=== 10` arm is dead: `x` is 11 digits), and the untouched leading `+`
of `m[0]` stays in front of the replacement. -/
def formatPhone (m : List Char) : String :=
  if m.length == 10 then String.mk m
  else
    let d := m.drop 2
    "++1 " ++ String.mk (d.take 3) ++ "-" ++ String.mk ((d.drop 3).take 3)
      ++ "-" ++ String.mk (d.drop 6)

/-- `const s = (t||'').replace(/[^\d\+]/g, '');`
`const m = s.match(/(?:\+1)?(\d{10})$/);`
`return m ? m[0].replace(...) : null;` -/
def extractPhone (t : String) : Option String :=
  (phoneScan (t.data.filter isPhoneChar)).map formatPhone

/-- `[A-Z0-9._%+-]` with the `i` flag. -/
def emailLocalChar (c : Char) : Bool :=
  c.isAlphanum || c == '.' || c == '_' || c == '%' || c == '+' || c == '-'

/-- `[A-Z0-9.-]` with the `i` flag. -/
def emailDomChar (c : Char) : Bool := c.isAlphanum || c == '.' || c == '-'

/-- Backtracking of `[A-Z0-9.-]+\.[A-Z]{2,}` after the `@`: the greedy
domain run gives characters back one at a time, so the match keeps the
longest domain prefix of length `dd ≥ 1` whose next character is `.`
followed by at least two letters ( the letter run is maximal because a
shorter run would leave a letter where the pattern has ended and the
next attempt starts, which is fine — the trailing `[A-Z]{2,}` is greedy
and nothing follows it).  Returns how many characters after the `@` the
match consumes. -/
def emailBack (rest : List Char) : Nat → Option Nat
  | 0 => none
  | n + 1 =>
      let a := ((rest.drop (n + 2)).takeWhile Char.isAlpha).length
      if rest.getD (n + 1) ' ' == '.' && decide (2 ≤ a) then some (n + 2 + a)
      else emailBack rest n

/-- Match of `/[A-Z0-9._%+-]+@[A-Z0-9.-]+\.[A-Z]{2,}/i` anchored at the
head of `cs`; returns the matched length.  The local-part run is
maximal (its characters do not include `@`, so giving characters back
can never make the literal `@` match). -/
def emailAt (cs : List Char) : Option Nat :=
  let l := (cs.takeWhile emailLocalChar).length
  if l == 0 then none
  else if cs.getD l ' ' == '@' then
    let rest := cs.drop (l + 1)
    let r := (rest.takeWhile emailDomChar).length
    if r == 0 then none
    else
      match emailBack rest (r - 1) with
      | some k => some (l + 1 + k)
      | none => none
  else none

/-- Leftmost-first search for the email pattern. -/
def emailSearch : List Char → Option (List Char)
  | [] => none
  | c :: cs =>
      match emailAt (c :: cs) with
      | some k => some ((c :: cs).take k)
      | none => emailSearch cs

/-- `const m = (t||'').match(/[A-Z0-9._%+-]+@[A-Z0-9.-]+\.[A-Z]{2,}/i);`
`return m ? m[0] : null;` -/
def extractEmail (t : String) : Option String :=
  (emailSearch t.data).map String.mk

/-- `/\b(accident|injury|fell|fall|collision|crash|rear[- ]?ended|hit|dog bite|bite|slip|trip|work|car|uber|lyft|truck|bicycle|pedestrian|bus|motorcycle)\b/i`
(`rear[- ]?ended` expands to its three literal spellings). -/
def looksIncidenty (t : String) : Bool :=
  let s := t.toLower.data
  ["accident", "injury", "fell", "fall", "collision", "crash",
   "rear-ended", "rear ended", "rearended", "hit", "dog bite", "bite",
   "slip", "trip", "work", "car", "uber", "lyft", "truck", "bicycle",
   "pedestrian", "bus", "motorcycle"].any (fun w => containsWord s w.data)

/-- Leftmost-first regex scan: try a position-indexed matcher at
`i = 0, 1, ...` and keep the first success. -/
def scanFirstG {α : Type} (f : Nat → Option α) : Nat → Nat → Option α
  | _, 0 => none
  | i, fuel + 1 =>
      match f i with
      | some r => some r
      | none => scanFirstG f (i + 1) fuel

def sliceStr (cs : List Char) (i e : Nat) : String := String.mk ((cs.drop i).take (e - i))

/-- `String.prototype.trim()` over ASCII whitespace, rendered on the
character list so that it evaluates inside the kernel. -/
def jsTrim (s : String) : String :=
  String.mk (((s.data.dropWhile Char.isWhitespace).reverse.dropWhile
    Char.isWhitespace).reverse)

/-- `replace(/\s+/g, ' ')`: collapse every whitespace run to one
space.  The flag records whether the previous character was
whitespace. -/
def collapseWs : Bool → List Char → List Char
  | _, [] => []
  | prevWs, c :: cs =>
      if c.isWhitespace then
        if prevWs then collapseWs true cs else ' ' :: collapseWs true cs
      else c :: collapseWs false cs

/-- `toTitle = s => (s||'').replace(/\b([a-z])/gi, m => m.toUpperCase())`:
uppercase every letter that starts the string or follows a non-word
character (matching looks at the original characters). -/
def toTitleAux : Option Char → List Char → List Char
  | _, [] => []
  | prev, c :: cs =>
      let boundary := match prev with | none => true | some p => !wordCharB p
      (if c.isAlpha && boundary then c.toUpper else c) :: toTitleAux (some c) cs

def toTitle (s : String) : String := String.mk (toTitleAux none s.data)

/-- `cand.split(/\s+/).length` on trimmed input: the number of maximal
non-whitespace runs. -/
def wordCount (s : String) : Nat :=
  ((s.split (fun c => c.isWhitespace)).filter (fun w => w ≠ "")).length

/-- `[a-z\s\.'-]` with the `i` flag. -/
def nameClassChar (c : Char) : Bool :=
  c.isAlpha || c.isWhitespace || c == '.' || c == apos || c == '-'

/-- The self-introduction phrases of
`/\b(?:my name is|this is|i am|i'm)\s+([a-z][a-z\s\.'-]{2,})$/i`,
in alternation order. -/
def namePhrases : List String := ["my name is", "this is", "i am", String.mk ['i', apos, 'm']]

/-- Match of the self-introduction regex at position `i` of the
lowercased text; returns the start of the capture group.  The `$`
anchor forces the group to consume the entire rest of the string, so
the greedy `{2,}` cannot backtrack usefully; the `\s+` run is maximal
because the group starts with a letter. -/
def nameIntroAt (low : List Char) (i : Nat) : Option Nat :=
  if leftBoundary low i then
    match namePhrases.findSome? (fun p =>
        if startsWithAt low p.data i then some (i + p.length) else none) with
    | some j =>
        let w := ((low.drop j).takeWhile Char.isWhitespace).length
        if 1 ≤ w && (low.getD (j + w) ' ').isAlpha
            && (low.drop (j + w + 1)).all nameClassChar
            && decide (2 ≤ low.length - (j + w + 1)) then
          some (j + w)
        else none
    | none => none
  else none

/-- `[A-Z][a-z]+` at position `i` (ASCII cases, no `i` flag); maximal
lower run.  Returns the exclusive end. -/
def capWordAt (cs : List Char) (i : Nat) : Option Nat :=
  if (cs.getD i ' ').isUpper then
    let l := ((cs.drop (i + 1)).takeWhile Char.isLower).length
    if 1 ≤ l then some (i + 1 + l) else none
  else none

/-- One `\s+[A-Z][a-z]+` repetition starting at `e`. -/
def moreWordAt (cs : List Char) (e : Nat) : Option Nat :=
  let w := ((cs.drop e).takeWhile Char.isWhitespace).length
  if 1 ≤ w then capWordAt cs (e + w) else none

/-- Match of `/\b([A-Z][a-z]+(?:\s+[A-Z][a-z]+){1,2})\b/` at position
`i`: greedy `{1,2}` tries two repetitions before one; shortening a
maximal `[a-z]+` run always leaves a lowercase (word) character next,
so neither `\b` nor `\s+` can then match and the maximal-run parse is
complete.  After a successful second repetition attempt, the
one-repetition fallback always has its `\b` satisfied (the next
character is whitespace). -/
def capNameAt (cs : List Char) (i : Nat) : Option Nat :=
  if leftBoundary cs i then
    match capWordAt cs i with
    | some e1 =>
        match moreWordAt cs e1 with
        | some e2 =>
            (match moreWordAt cs e2 with
             | some e3 =>
                 if rightBoundary cs e3 then some e3
                 else if rightBoundary cs e2 then some e2 else none
             | none => if rightBoundary cs e2 then some e2 else none)
        | none => none
    | none => none
  else none

/-- `const extractFullName = t => ...` (page.tsx lines 335-344): prefer
the self-introduction pattern with a multi-word candidate (whitespace
collapsed, title-cased); fall back to the first capitalized two/three
word run, returned verbatim. -/
def extractFullName (t : String) : Option String :=
  if t = "" then none
  else
    let cs := t.data
    let low := t.toLower.data
    let fallback := (scanFirstG (fun i => (capNameAt cs i).map (fun e => (i, e)))
        0 (cs.length + 1)).map (fun p => sliceStr cs p.1 p.2)
    match scanFirstG (fun i => nameIntroAt low i) 0 (low.length + 1) with
    | some k =>
        let cand := jsTrim (String.mk (collapseWs false (cs.drop k)))
        if 2 ≤ wordCount cand then some (toTitle cand) else fallback
    | none => fallback

/-- Month alternatives of the first date regex, in alternation order
(the greedy `sept?` becomes `sept` before `sep`). -/
def monthNames : List String :=
  ["jan", "feb", "mar", "apr", "may", "jun", "jul", "aug", "sept", "sep", "oct", "nov", "dec"]

/-- Match of
`/\b(?:jan|feb|mar|apr|may|jun|jul|aug|sept?|oct|nov|dec)[a-z]*\s+\d{1,2}(?:st|nd|rd|th)?(?:,\s*\d{4})?/i`
at position `i` of the lowercased text; returns the exclusive end.  The
`[a-z]*` and `\s+` runs are maximal (the following token cannot match
their characters), `\d{1,2}` greedily takes two digits when it can
(everything after it is optional, so no backtracking), and the two
optional groups are taken greedily when they match in full. -/
def monthDateAt (low : List Char) (i : Nat) : Option Nat :=
  if leftBoundary low i then
    match monthNames.findSome? (fun p =>
        if startsWithAt low p.data i then some (i + p.length) else none) with
    | some j0 =>
        let j := j0 + ((low.drop j0).takeWhile Char.isAlpha).length
        let w := ((low.drop j).takeWhile Char.isWhitespace).length
        if 1 ≤ w then
          let p2 := j + w
          let dr := ((low.drop p2).takeWhile Char.isDigit).length
          if 1 ≤ dr then
            let nd := if 2 ≤ dr then 2 else 1
            let p3 := p2 + nd
            let p4 := if ["st", "nd", "rd", "th"].any (fun o => startsWithAt low o.data p3)
              then p3 + 2 else p3
            let p5 :=
              if low.getD p4 ' ' == ',' then
                let wz := ((low.drop (p4 + 1)).takeWhile Char.isWhitespace).length
                let dr2 := ((low.drop (p4 + 1 + wz)).takeWhile Char.isDigit).length
                if 4 ≤ dr2 then p4 + 1 + wz + 4 else p4
              else p4
            some p5
          else none
        else none
    | none => none
  else none

/-- The optional `(?:\/\d{2,4})?` then the final `\b` of the slash-date
regex, at position `cont`: the greedy `\d{2,4}` can only end at the end
of the digit run (anywhere earlier the next character is a digit, a
word character, so `\b` fails), hence it takes `min run 4` digits when
that is at least two and the boundary holds; otherwise the group is
skipped and `\b` must hold at `cont`. -/
def slashYear (cs : List Char) (cont : Nat) : Option Nat :=
  if cs.getD cont ' ' == '/' then
    let yr := ((cs.drop (cont + 1)).takeWhile Char.isDigit).length
    let y := min yr 4
    if 2 ≤ y && rightBoundary cs (cont + 1 + y) then some (cont + 1 + y)
    else if rightBoundary cs cont then some cont else none
  else if rightBoundary cs cont then some cont else none

/-- Match of `/\b\d{1,2}\/\d{1,2}(?:\/\d{2,4})?\b/` at position `i`:
each greedy `\d{1,2}` tries two digits, then one, against the
continuation. -/
def slashDateAt (cs : List Char) (i : Nat) : Option Nat :=
  if leftBoundary cs i then
    let d1 := ((cs.drop i).takeWhile Char.isDigit).length
    let tryN1 := fun (n1 : Nat) =>
      if n1 ≤ d1 && cs.getD (i + n1) ' ' == '/' then
        let p := i + n1 + 1
        let d2 := ((cs.drop p).takeWhile Char.isDigit).length
        (if 2 ≤ d2 then slashYear cs (p + 2) else none) <|>
          (if 1 ≤ d2 then slashYear cs (p + 1) else none)
      else none
    tryN1 2 <|> tryN1 1
  else none

/-- Match of
`/\b(?:yesterday|today|last\s+(?:mon|tue|wed|thu|fri|sat|sun)(?:day)?)\b/i`
at position `i` of the lowercased text. -/
def relDayAt (low : List Char) (i : Nat) : Option Nat :=
  if leftBoundary low i then
    if startsWithAt low "yesterday".data i && rightBoundary low (i + 9) then some (i + 9)
    else if startsWithAt low "today".data i && rightBoundary low (i + 5) then some (i + 5)
    else if startsWithAt low "last".data i then
      let w := ((low.drop (i + 4)).takeWhile Char.isWhitespace).length
      if 1 ≤ w then
        let p := i + 4 + w
        if ["mon", "tue", "wed", "thu", "fri", "sat", "sun"].any
            (fun d0 => startsWithAt low d0.data p) then
          if startsWithAt low "day".data (p + 3) && rightBoundary low (p + 6) then some (p + 6)
          else if rightBoundary low (p + 3) then some (p + 3)
          else none
        else none
      else none
    else none
  else none

/-- `const extractDate = t => ...` (page.tsx lines 345-352): the three
regexes are tried in order (`||`), each leftmost-first; `m[0]` is the
slice of the original text. -/
def extractDate (t : String) : Option String :=
  if t = "" then none
  else
    let cs := t.data
    let low := t.toLower.data
    match scanFirstG (fun i => (monthDateAt low i).map (fun e => (i, e))) 0 (low.length + 1) with
    | some (i, e) => some (sliceStr cs i e)
    | none =>
      match scanFirstG (fun i => (slashDateAt cs i).map (fun e => (i, e))) 0 (cs.length + 1) with
      | some (i, e) => some (sliceStr cs i e)
      | none =>
        match scanFirstG (fun i => (relDayAt low i).map (fun e => (i, e))) 0 (low.length + 1) with
        | some (i, e) => some (sliceStr cs i e)
        | none => none

/-- `[A-Za-z\.\-']`, the city-word characters of the location regex. -/
def locClsChar (c : Char) : Bool := c.isAlpha || c == '.' || c == '-' || c == apos

/-- Whether `cs[start..e)` parses as
`[A-Za-z][A-Za-z\.\-']+(?:\s+[A-Za-z\.\-']+)*`: only class/whitespace
characters, a letter then a class character at the front, and a class
character at the back (the flexible quantifiers then decompose it
uniquely into alternating runs). -/
def locPhraseOk (cs : List Char) (start e : Nat) : Bool :=
  decide (start + 2 ≤ e) && (cs.getD start ' ').isAlpha
    && locClsChar (cs.getD (start + 1) ' ')
    && ((cs.drop start).take (e - start)).all (fun c => locClsChar c || c.isWhitespace)
    && locClsChar (cs.getD (e - 1) ' ')

/-- The optional `(?:,\s*([A-Za-z]{2,}))?` then the final `\b` of the
location regex, tried at the phrase end `e`.  Only the maximal letter
run can carry the trailing `\b` (a shorter run is followed by another
letter).  Returns the group-2 range when the optional part is taken. -/
def locContAt (cs : List Char) (e : Nat) : Option (Option (Nat × Nat)) :=
  (if cs.getD e ' ' == ',' then
    let wz := ((cs.drop (e + 1)).takeWhile Char.isWhitespace).length
    let ar := ((cs.drop (e + 1 + wz)).takeWhile Char.isAlpha).length
    if 2 ≤ ar && rightBoundary cs (e + 1 + wz + ar) then
      some (some (e + 1 + wz, e + 1 + wz + ar))
    else none
  else none) <|>
  (if rightBoundary cs e then some none else none)

/-- Greedy exploration of the phrase end: the engine shrinks the
group-1 quantifiers one character at a time, so the phrase ends are
tried from the longest candidate down; the first end whose continuation
matches wins.  `n` is the offset of the candidate end above the minimal
`start + 2`. -/
def locTryEnds (cs : List Char) (start : Nat) : Nat → Option (Nat × Option (Nat × Nat))
  | 0 =>
      if locPhraseOk cs start (start + 2) then
        match locContAt cs (start + 2) with
        | some grp => some (start + 2, grp)
        | none => none
      else none
  | n + 1 =>
      let e := start + 2 + (n + 1)
      if locPhraseOk cs start e then
        match locContAt cs e with
        | some grp => some (e, grp)
        | none => locTryEnds cs start n
      else locTryEnds cs start n

/-- Match of
`/\b(?:in|at)\s+([A-Za-z][A-Za-z\.\-']+(?:\s+[A-Za-z\.\-']+)*)(?:,\s*([A-Za-z]{2,}))?\b/`
at position `i` (case-sensitive: only lowercase `in`/`at` trigger).
Returns `(start of group 1, end of group 1, group 2 range)`. -/
def locAt (cs : List Char) (i : Nat) : Option (Nat × Nat × Option (Nat × Nat)) :=
  if leftBoundary cs i && (startsWithAt cs "in".data i || startsWithAt cs "at".data i) then
    let j := i + 2
    let w := ((cs.drop j).takeWhile Char.isWhitespace).length
    if 1 ≤ w then
      let start := j + w
      let run := ((cs.drop start).takeWhile (fun c => locClsChar c || c.isWhitespace)).length
      if 2 ≤ run then
        (locTryEnds cs start (run - 2)).map (fun p => (start, p.1, p.2))
      else none
    else none
  else none

/-- `/^(an?|the)\s+(accident|injury|crash)\b/i` on the captured phrase:
the incident-description shapes that are rejected as locations. -/
def locReject (phrase : String) : Bool :=
  let low := phrase.toLower.data
  ["an", "a", "the"].any (fun art =>
    startsWithAt low art.data 0 &&
    (let w := ((low.drop art.length).takeWhile Char.isWhitespace).length
     decide (1 ≤ w) &&
     ["accident", "injury", "crash"].any (fun kw =>
       startsWithAt low kw.data (art.length + w) &&
       rightBoundary low (art.length + w + kw.length))))

/-- `const extractLocation = t => ...` (page.tsx lines 353-363): take
the leftmost match, trim the phrase, reject incident-description
phrases, title-case the city and uppercase the optional state. -/
def extractLocation (t : String) : Option String :=
  if t = "" then none
  else
    let cs := t.data
    match scanFirstG (fun i => locAt cs i) 0 (cs.length + 1) with
    | none => none
    | some (start, e, grp) =>
        let phrase := jsTrim (sliceStr cs start e)
        if locReject phrase then none
        else
          let city := toTitle phrase
          match grp with
          | some (a, b) => some (city ++ ", " ++ (sliceStr cs a b).toUpper)
          | none => some city

/-! ## The shadow intake record and `updateIntakeFromUserText`
(page.tsx lines 312-318 and 371-399) -/

structure IntakeState where
  client_type : Option String := none
  full_name : Option String := none
  phone : Option String := none
  email : Option String := none
  incident : Option String := none
  date : Option String := none
  location : Option String := none
  transcripts : List String := []
  recentUtterances : List String := []
  completeLogged : Bool := false
  deriving Repr, DecidableEq

/-- `makeIntakeState()`. -/
def makeIntakeState : IntakeState := {}

/-- A JS truthiness filter on an extracted value: `null` and the empty
string are falsy. -/
def jsTruthy : Option String → Option String
  | some x => if x = "" then none else some x
  | none => none

/-- `maybe(label, val)`: `if (val && !intake[label]) intake[label] = val;`
— populate only an unpopulated field, and only with a truthy value. -/
def jsMaybe (cur v : Option String) : Option String :=
  match cur with
  | some c => some c
  | none => jsTruthy v

/-- The body of `updateIntakeFromUserText` after the duplicate window
check passed: push into the rolling window (`recent.push(incoming);
if (recent.length > 25) recent.shift();`), append to the transcript
log, run every `maybe`-guarded extractor, and fill `incident` from the
keyword/word-count rule. -/
def updateIntakeCore (intake : IntakeState) (incoming : String) : IntakeState :=
  let recent1 := intake.recentUtterances ++ [incoming]
  let recent2 := if 25 < recent1.length then recent1.tail else recent1
  let base : IntakeState :=
    { intake with
      recentUtterances := recent2,
      transcripts := intake.transcripts ++ [incoming],
      client_type := jsMaybe intake.client_type (extractClientType incoming),
      full_name := jsMaybe intake.full_name (extractFullName incoming),
      phone := jsMaybe intake.phone (extractPhone incoming),
      email := jsMaybe intake.email (extractEmail incoming),
      date := jsMaybe intake.date (extractDate incoming),
      location := jsMaybe intake.location (extractLocation incoming) }
  if base.incident = none ∧ (looksIncidenty incoming ∨ 6 ≤ wordCount incoming) then
    { base with incident := some incoming }
  else base

/-- `updateIntakeFromUserText(intake, text, logger)` (page.tsx lines
371-399): trim; ignore empty text; ignore an exact duplicate found in
the rolling window of recent utterances; otherwise process. -/
def updateIntakeFromUserText (intake : IntakeState) (txt : String) : IntakeState :=
  let incoming := jsTrim txt
  if incoming = "" then intake
  else if incoming ∈ intake.recentUtterances then intake
  else updateIntakeCore intake incoming

theorem jsMaybe_some (c : String) (v : Option String) : jsMaybe (some c) v = some c := rfl

theorem updateIntake_empty (i : IntakeState) (t : String) (h : jsTrim t = "") :
    updateIntakeFromUserText i t = i := by
  simp [updateIntakeFromUserText, h]

theorem updateIntake_dup (i : IntakeState) (t : String)
    (h2 : jsTrim t ∈ i.recentUtterances) : updateIntakeFromUserText i t = i := by
  by_cases h1 : jsTrim t = "" <;> simp [updateIntakeFromUserText, h1, h2]

theorem updateIntake_main (i : IntakeState) (t : String) (h1 : jsTrim t ≠ "")
    (h2 : jsTrim t ∉ i.recentUtterances) :
    updateIntakeFromUserText i t = updateIntakeCore i (jsTrim t) := by
  simp [updateIntakeFromUserText, h1, h2]

/-- After processing, the utterance sits in the rolling window (the
window keeps the tail, so the element just pushed survives the
overflow shift). -/
theorem updateIntakeCore_recent (i : IntakeState) (x : String) :
    x ∈ (updateIntakeCore i x).recentUtterances := by
  have hfield : (updateIntakeCore i x).recentUtterances =
      (if 25 < (i.recentUtterances ++ [x]).length then (i.recentUtterances ++ [x]).tail
       else (i.recentUtterances ++ [x])) := by
    simp only [updateIntakeCore]
    split <;> rfl
  rw [hfield]
  split
  · next h =>
    cases hq : i.recentUtterances with
    | nil => rw [hq] at h; simp at h
    | cons a r' => simp
  · simp

theorem updateIntakeCore_client_type (i : IntakeState) (x : String) :
    (updateIntakeCore i x).client_type = jsMaybe i.client_type (extractClientType x) := by
  simp only [updateIntakeCore]; split <;> rfl

theorem updateIntakeCore_full_name (i : IntakeState) (x : String) :
    (updateIntakeCore i x).full_name = jsMaybe i.full_name (extractFullName x) := by
  simp only [updateIntakeCore]; split <;> rfl

theorem updateIntakeCore_phone (i : IntakeState) (x : String) :
    (updateIntakeCore i x).phone = jsMaybe i.phone (extractPhone x) := by
  simp only [updateIntakeCore]; split <;> rfl

theorem updateIntakeCore_email (i : IntakeState) (x : String) :
    (updateIntakeCore i x).email = jsMaybe i.email (extractEmail x) := by
  simp only [updateIntakeCore]; split <;> rfl

theorem updateIntakeCore_date (i : IntakeState) (x : String) :
    (updateIntakeCore i x).date = jsMaybe i.date (extractDate x) := by
  simp only [updateIntakeCore]; split <;> rfl

theorem updateIntakeCore_location (i : IntakeState) (x : String) :
    (updateIntakeCore i x).location = jsMaybe i.location (extractLocation x) := by
  simp only [updateIntakeCore]; split <;> rfl

theorem updateIntakeCore_incident (i : IntakeState) (x : String) :
    (updateIntakeCore i x).incident =
      if i.incident = none ∧ (looksIncidenty x ∨ 6 ≤ wordCount x) then some x
      else i.incident := by
  by_cases hc : i.incident = none ∧ (looksIncidenty x ∨ 6 ≤ wordCount x) <;>
    simp only [updateIntakeCore] <;> simp [hc]

/-- Every populated field survives any further ingestion untouched
(first-writer-wins, field by field). -/
theorem updateIntake_preserves (j : IntakeState) (t : String) :
    (j.client_type ≠ none → (updateIntakeFromUserText j t).client_type = j.client_type) ∧
    (j.full_name ≠ none → (updateIntakeFromUserText j t).full_name = j.full_name) ∧
    (j.phone ≠ none → (updateIntakeFromUserText j t).phone = j.phone) ∧
    (j.email ≠ none → (updateIntakeFromUserText j t).email = j.email) ∧
    (j.incident ≠ none → (updateIntakeFromUserText j t).incident = j.incident) ∧
    (j.date ≠ none → (updateIntakeFromUserText j t).date = j.date) ∧
    (j.location ≠ none → (updateIntakeFromUserText j t).location = j.location) := by
  by_cases h1 : jsTrim t = ""
  · rw [updateIntake_empty j t h1]
    exact ⟨fun _ => rfl, fun _ => rfl, fun _ => rfl, fun _ => rfl,
           fun _ => rfl, fun _ => rfl, fun _ => rfl⟩
  · by_cases h2 : jsTrim t ∈ j.recentUtterances
    · rw [updateIntake_dup j t h2]
      exact ⟨fun _ => rfl, fun _ => rfl, fun _ => rfl, fun _ => rfl,
             fun _ => rfl, fun _ => rfl, fun _ => rfl⟩
    · rw [updateIntake_main j t h1 h2]
      refine ⟨?_, ?_, ?_, ?_, ?_, ?_, ?_⟩ <;> intro h
      · rcases hc : j.client_type with _ | c
        · exact absurd hc h
        · rw [updateIntakeCore_client_type, hc, jsMaybe_some]
      · rcases hc : j.full_name with _ | c
        · exact absurd hc h
        · rw [updateIntakeCore_full_name, hc, jsMaybe_some]
      · rcases hc : j.phone with _ | c
        · exact absurd hc h
        · rw [updateIntakeCore_phone, hc, jsMaybe_some]
      · rcases hc : j.email with _ | c
        · exact absurd hc h
        · rw [updateIntakeCore_email, hc, jsMaybe_some]
      · rw [updateIntakeCore_incident, if_neg (fun hc => h hc.1)]
      · rcases hc : j.date with _ | c
        · exact absurd hc h
        · rw [updateIntakeCore_date, hc, jsMaybe_some]
      · rcases hc : j.location with _ | c
        · exact absurd hc h
        · rw [updateIntakeCore_location, hc, jsMaybe_some]

/-- A successful phone match is either ten digits or `+1` plus ten
digits — in particular it is never empty. -/
theorem phoneScan_length (s m : List Char) (h : phoneScan s = some m) :
    m.length = 10 ∨ m.length = 12 := by
  induction s with
  | nil => simp [phoneScan] at h
  | cons c cs ih =>
    rw [phoneScan] at h
    split at h
    · next hc =>
      right
      cases h
      simp only [Bool.and_eq_true, decide_eq_true_eq, beq_iff_eq] at hc
      simp only [List.length_cons]
      omega
    · split at h
      · next hc =>
        left
        cases h
        simp only [Bool.and_eq_true, beq_iff_eq] at hc
        exact hc.1
      · exact ih h

theorem extractPhone_ne_empty (t p : String) (h : extractPhone t = some p) : p ≠ "" := by
  unfold extractPhone at h
  cases hm : phoneScan (t.data.filter isPhoneChar) with
  | none => rw [hm] at h; cases h
  | some m =>
    rw [hm] at h
    simp only [Option.map_some'] at h
    have hl := phoneScan_length _ m hm
    cases h
    intro hempty
    have hdata := congrArg String.data hempty
    unfold formatPhone at hdata
    rcases hl with h10 | h12
    · rw [if_pos (by simp [h10])] at hdata
      have hnil : m = [] := hdata
      rw [hnil] at h10
      simp at h10
    · rw [if_neg (by simp [h12])] at hdata
      have h4 : ("++1 ").data = [Char.ofNat 43, Char.ofNat 43, Char.ofNat 49, Char.ofNat 32] := rfl
      simp only [String.data_append, h4] at hdata
      simp at hdata

/-- **C9.** Duplicate-utterance idempotence: an utterance whose trimmed
text is already in the rolling `recentUtterances` window (the last 25
utterances) is ignored — no field extraction, no transcript append, the
record is returned unchanged; consequently ingesting the same utterance
twice in succession leaves the record exactly as after the first
ingestion. -/
theorem C9_duplicate_idempotence (i : IntakeState) (t : String)
    (hdup : jsTrim t ∈ i.recentUtterances) :
    updateIntakeFromUserText i t = i ∧
    (∀ (j : IntakeState) (u : String),
      updateIntakeFromUserText (updateIntakeFromUserText j u) u
        = updateIntakeFromUserText j u) := by
  refine ⟨updateIntake_dup i t hdup, ?_⟩
  intro j u
  by_cases h1 : jsTrim u = ""
  · rw [updateIntake_empty j u h1, updateIntake_empty j u h1]
  · by_cases h2 : jsTrim u ∈ j.recentUtterances
    · rw [updateIntake_dup j u h2, updateIntake_dup j u h2]
    · rw [updateIntake_main j u h1 h2]
      exact updateIntake_dup _ u (updateIntakeCore_recent j (jsTrim u))

/-- Witness for C9 at a concrete input: a record whose window already
holds "hello there" ignores the duplicate. -/
theorem C9_duplicate_idempotence_witness :
    jsTrim ("hello there" : String) ∈
      ({ recentUtterances := ["hello there"] } : IntakeState).recentUtterances ∧
    updateIntakeFromUserText { recentUtterances := ["hello there"] } "hello there"
      = { recentUtterances := ["hello there"] } := by
  refine ⟨by decide, ?_⟩
  exact (C9_duplicate_idempotence { recentUtterances := ["hello there"] } "hello there"
    (by decide)).1

/-- **C4.** First-writer-wins on intake fields: every populated field
of the shadow intake record (classification, full name, phone, email,
incident, date, location) is never overwritten by a later ingestion;
and for two utterances each carrying a phone number, the record ends
with the phone extracted from the first utterance processed, never the
second. -/
theorem C4_first_writer_wins (i : IntakeState) (u1 u2 p1 : String)
    (hnone : i.phone = none) (hfresh : jsTrim u1 ∉ i.recentUtterances)
    (hx : extractPhone (jsTrim u1) = some p1) :
    (∀ (j : IntakeState) (t : String),
      (j.client_type ≠ none → (updateIntakeFromUserText j t).client_type = j.client_type) ∧
      (j.full_name ≠ none → (updateIntakeFromUserText j t).full_name = j.full_name) ∧
      (j.phone ≠ none → (updateIntakeFromUserText j t).phone = j.phone) ∧
      (j.email ≠ none → (updateIntakeFromUserText j t).email = j.email) ∧
      (j.incident ≠ none → (updateIntakeFromUserText j t).incident = j.incident) ∧
      (j.date ≠ none → (updateIntakeFromUserText j t).date = j.date) ∧
      (j.location ≠ none → (updateIntakeFromUserText j t).location = j.location)) ∧
    (updateIntakeFromUserText (updateIntakeFromUserText i u1) u2).phone = some p1 := by
  refine ⟨fun j t => updateIntake_preserves j t, ?_⟩
  have hne : jsTrim u1 ≠ "" := by
    intro hempty
    rw [hempty] at hx
    have : extractPhone "" = none := rfl
    rw [this] at hx
    cases hx
  have hfirst : (updateIntakeFromUserText i u1).phone = some p1 := by
    rw [updateIntake_main i u1 hne hfresh, updateIntakeCore_phone, hnone, hx]
    show jsTruthy (some p1) = some p1
    simp only [jsTruthy]
    rw [if_neg (extractPhone_ne_empty (jsTrim u1) p1 hx)]
  have hkeep := (updateIntake_preserves (updateIntakeFromUserText i u1) u2).2.2.1
  rw [hkeep (by rw [hfirst]; exact fun hcon => by cases hcon), hfirst]

/-- Witness for C4 at concrete inputs: a fresh record ingests a phone
number from the first utterance and keeps it through a second utterance
that also carries one. -/
theorem C4_first_writer_wins_witness :
    makeIntakeState.phone = none ∧
    jsTrim ("my number is 5551234567" : String) ∉ makeIntakeState.recentUtterances ∧
    extractPhone (jsTrim ("my number is 5551234567" : String)) = some "5551234567" ∧
    (updateIntakeFromUserText (updateIntakeFromUserText makeIntakeState
        "my number is 5551234567") "call 5559998888 instead").phone = some "5551234567" := by
  refine ⟨rfl, by decide, by decide, ?_⟩
  exact (C4_first_writer_wins makeIntakeState "my number is 5551234567"
    "call 5559998888 instead" "5551234567" rfl (by decide) (by decide)).2
